import Mathlib

/-!
# kube-capacity: aggregation and rendering of resource metrics

A shallow embedding of `pkg/capacity/resources.go`.

* `Quantity` stands for `resource.Quantity` of k8s.io/apimachinery: a fixed-point
  decimal number.  It is kept as an integer count of nano-units (the finest
  precision the quantity parser produces); `Value` and `MilliValue` round away
  from zero as the library documents.  The int64 range of the accessors is not
  modelled: quantities are taken small enough for `MilliValue` to fit.
* `Float64` stands for the Go type `float64` (IEEE-754 binary64, round to
  nearest, ties to even).
* Go maps are association lists; pointers to metrics are replaced by the
  values they point to, and an update through a pointer by writing the new
  value back into the map that holds it.
-/

set_option maxRecDepth 100000

namespace Capacity

/-! ## resource.Quantity -/

/-- A `resource.Quantity`, counted in nano-units. -/
structure Quantity where
  nano : Int
deriving DecidableEq, Repr

namespace Quantity

instance : Zero Quantity := ⟨⟨0⟩⟩

/-- Integer division rounding away from zero, the rounding of `ScaledValue`. -/
def divAway (n d : Int) : Int :=
  if 0 ≤ n then (n + (d - 1)) / d else -((-n + (d - 1)) / d)

/-- The `Value()` accessor: the quantity in whole units, rounded away from zero. -/
def Value (q : Quantity) : Int := divAway q.nano 1000000000

/-- The `MilliValue()` accessor: the quantity in milli-units, rounded away from zero. -/
def MilliValue (q : Quantity) : Int := divAway q.nano 1000000

/-- The `Add` method (here returning the updated receiver). -/
def Add (q y : Quantity) : Quantity := ⟨q.nano + y.nano⟩

/-- The constructor `NewQuantity`: a whole number of units. -/
def NewQuantity (v : Int) : Quantity := ⟨v * 1000000000⟩

/-- The constructor `NewMilliQuantity`: a whole number of milli-units. -/
def NewMilliQuantity (m : Int) : Quantity := ⟨m * 1000000⟩

end Quantity

/-! ## float64 -/

/-- A binary64 value.  `finite m e` is the number `m * 2 ^ e`; the sign of a zero
is not kept (no operation below divides by a computed zero). -/
inductive Float64 where
  | finite (mant : Int) (exp : Int)
  | inf (negative : Bool)
  | nan
deriving DecidableEq, Repr

namespace Float64

/-- Number of binary digits of `n`, by halving at most `fuel` times. -/
def bitLength : Nat → Nat → Nat
  | 0, _ => 0
  | fuel + 1, n => if n = 0 then 0 else bitLength fuel (n / 2) + 1

/-- Rounds the positive rational `n / d` to binary64 (53-bit significand, least
exponent `-1074`, round to nearest, ties to even) and attaches the sign. -/
def round (negative : Bool) (n d : Nat) : Float64 :=
  if n = 0 ∨ d = 0 then finite 0 0 else
  let k0 : Int := max ((bitLength n n : Int) - (bitLength d d : Int) - 53) (-1074)
  let N : Nat := n * 2 ^ (-k0).toNat
  let D : Nat := d * 2 ^ k0.toNat
  let k : Int := if 2 ^ 53 ≤ N / D then k0 + 1 else k0
  let D : Nat := if 2 ^ 53 ≤ N / D then 2 * D else D
  let q : Nat := N / D
  let r : Nat := N % D
  let q : Nat := if D < 2 * r ∨ (2 * r = D ∧ q % 2 = 1) then q + 1 else q
  if 971 < k ∨ (k = 971 ∧ q = 2 ^ 53) then inf negative
  else finite (if negative then -(q : Int) else q) k

/-- The conversion `float64(i)` of an integer. -/
def ofInt (i : Int) : Float64 := round (decide (i < 0)) i.natAbs 1

/-- The quotient `x / y` of two binary64 values. -/
def div : Float64 → Float64 → Float64
  | nan, _ => nan
  | _, nan => nan
  | inf _, inf _ => nan
  | inf s, finite m _ => inf (s != decide (m < 0))
  | finite _ _, inf _ => finite 0 0
  | finite m₁ e₁, finite m₂ e₂ =>
    if m₂ = 0 then (if m₁ = 0 then nan else inf (decide (m₁ < 0)))
    else
      round (decide (m₁ < 0) != decide (m₂ < 0))
        (m₁.natAbs * 2 ^ (e₁ - e₂).toNat) (m₂.natAbs * 2 ^ (e₂ - e₁).toNat)

/-- The product `x * y` of two binary64 values. -/
def mul : Float64 → Float64 → Float64
  | nan, _ => nan
  | _, nan => nan
  | inf s, inf t => inf (s != t)
  | inf s, finite m _ => if m = 0 then nan else inf (s != decide (m < 0))
  | finite m _, inf t => if m = 0 then nan else inf (decide (m < 0) != t)
  | finite m₁ e₁, finite m₂ e₂ =>
    round (decide (m₁ < 0) != decide (m₂ < 0))
      (m₁.natAbs * m₂.natAbs * 2 ^ (e₁ + e₂).toNat) (2 ^ (-(e₁ + e₂)).toNat)

/-- The conversion `int64(f)`: truncation toward zero.  Where the truncated value
is not an int64 (also for infinities and NaN) the Go specification leaves the
result to the implementation; `outOfRange` is that choice. -/
def toInt64 (outOfRange : Float64 → Int) : Float64 → Int
  | finite m e =>
    let t : Int := if 0 ≤ e then m * 2 ^ e.toNat else Int.tdiv m (2 ^ (-e).toNat)
    if -(2 ^ 63) ≤ t ∧ t < 2 ^ 63 then t else outOfRange (finite m e)
  | f => outOfRange f

end Float64

/-! ## fmt and fatih/color -/

/-- The verb `%d` of `fmt.Sprintf` on an int64: its decimal numeral. -/
def fmtInt (i : Int) : String := toString i

/-- The call `color.RedString(s)` with colours enabled (`init` sets
`color.NoColor = false`): `s` between the escape sequences for red and reset. -/
def RedString (s : String) : String := "\x1b[31m" ++ s ++ "\x1b[0m"

/-- The call `color.WhiteString(s)` with colours enabled. -/
def WhiteString (s : String) : String := "\x1b[37m" ++ s ++ "\x1b[0m"

/-! ## The data model -/

/-- A `corev1.ResourceList`: resource name to quantity. -/
abbrev ResourceList := List (String × Quantity)

/-- Indexing `rl[name]` of a Go map: the zero quantity when the name is absent. -/
def ResourceList.get (rl : ResourceList) (name : String) : Quantity :=
  (rl.lookup name).getD 0

structure resourceMetric where
  resourceType : String
  allocatable : Quantity
  utilization : Quantity
  request : Quantity
  limit : Quantity
deriving DecidableEq, Repr

structure podMetric where
  name : String
  namespace_ : String
  cpu : resourceMetric
  memory : resourceMetric
deriving DecidableEq, Repr

structure nodeMetric where
  cpu : resourceMetric
  memory : resourceMetric
  podMetrics : List (String × podMetric)
deriving DecidableEq, Repr

structure clusterMetric where
  cpu : resourceMetric
  memory : resourceMetric
  nodeMetrics : List (String × nodeMetric)
  podMetrics : List (String × podMetric)
deriving DecidableEq, Repr

/-- The assignment `m[key] = v` on a Go map: the binding of `key` is replaced
where there is one, and added otherwise. -/
def mapSet {α : Type} : List (String × α) → String → α → List (String × α)
  | [], key, v => [(key, v)]
  | (k, w) :: m, key, v => if k = key then (key, v) :: m else (k, w) :: mapSet m key v

structure PodSpec where
  NodeName : String
deriving DecidableEq, Repr

/-- The part of a `corev1.Pod` that `addPodMetric` reads.  `requests` and `limits`
are the two results of the library call `resourcehelper.PodRequestsAndLimits(pod)`. -/
structure Pod where
  Name : String
  Namespace : String
  Spec : PodSpec
  requests : ResourceList
  limits : ResourceList
deriving DecidableEq, Repr

/-- A `v1beta1.ContainerMetrics`. -/
structure ContainerMetrics where
  Usage : ResourceList
deriving DecidableEq, Repr

/-- A `v1beta1.PodMetrics`. -/
structure PodMetrics where
  Containers : List ContainerMetrics
deriving DecidableEq, Repr

/-! ## Accumulation -/

def resourceMetric.addMetric (rm m : resourceMetric) : resourceMetric :=
  { rm with
    allocatable := rm.allocatable.Add m.allocatable
    utilization := rm.utilization.Add m.utilization
    request := rm.request.Add m.request
    limit := rm.limit.Add m.limit }

/-- The key under which `addPodMetric` files a pod: `fmt.Sprintf("%s-%s", ...)`. -/
def podKey (pod : Pod) : String := pod.Namespace ++ "-" ++ pod.Name

/-- The `podMetric` literal that `addPodMetric` builds first. -/
def newPodMetric (pod : Pod) : podMetric :=
  { name := pod.Name
    namespace_ := pod.Namespace
    cpu :=
      { resourceType := "cpu", allocatable := 0, utilization := 0
        request := pod.requests.get "cpu", limit := pod.limits.get "cpu" }
    memory :=
      { resourceType := "memory", allocatable := 0, utilization := 0
        request := pod.requests.get "memory", limit := pod.limits.get "memory" } }

/-- Adds the usage of one container to the utilization of a cpu and a memory metric. -/
def addUsage (cpu memory : resourceMetric) (container : ContainerMetrics) :
    resourceMetric × resourceMetric :=
  ({ cpu with utilization := cpu.utilization.Add (container.Usage.get "cpu") },
   { memory with utilization := memory.utilization.Add (container.Usage.get "memory") })

/-- One round of the loop over the containers when no node was found: only the
pod's own utilization grows. -/
def usageStepOrphan (pm : podMetric) (container : ContainerMetrics) : podMetric :=
  { pm with
    cpu := (addUsage pm.cpu pm.memory container).1
    memory := (addUsage pm.cpu pm.memory container).2 }

/-- One round of the loop over the containers when the node `nm` was found: the
pod, the node and the cluster all grow by the container's usage. -/
def usageStep (s : podMetric × nodeMetric × clusterMetric) (container : ContainerMetrics) :
    podMetric × nodeMetric × clusterMetric :=
  let pm := usageStepOrphan s.1 container
  let nm : nodeMetric :=
    { s.2.1 with
      cpu := (addUsage s.2.1.cpu s.2.1.memory container).1
      memory := (addUsage s.2.1.cpu s.2.1.memory container).2 }
  let cm : clusterMetric :=
    { s.2.2 with
      cpu := (addUsage s.2.2.cpu s.2.2.memory container).1
      memory := (addUsage s.2.2.cpu s.2.2.memory container).2 }
  (pm, nm, cm)

def clusterMetric.addPodMetric (cm : clusterMetric) (pod : Pod) (podMetrics : PodMetrics) :
    clusterMetric :=
  let req := pod.requests
  let limit := pod.limits
  let key := podKey pod
  let pm := newPodMetric pod
  match cm.nodeMetrics.lookup pod.Spec.NodeName with
  | none =>
    let pm := podMetrics.Containers.foldl usageStepOrphan pm
    { cm with podMetrics := mapSet cm.podMetrics key pm }
  | some nm =>
    let cm : clusterMetric :=
      { cm with
        cpu := { cm.cpu with
                 request := cm.cpu.request.Add (req.get "cpu")
                 limit := cm.cpu.limit.Add (limit.get "cpu") }
        memory := { cm.memory with
                    request := cm.memory.request.Add (req.get "memory")
                    limit := cm.memory.limit.Add (limit.get "memory") } }
    let pm : podMetric :=
      { pm with
        cpu := { pm.cpu with allocatable := nm.cpu.allocatable }
        memory := { pm.memory with allocatable := nm.memory.allocatable } }
    let nm : nodeMetric :=
      { nm with
        cpu := { nm.cpu with
                 request := nm.cpu.request.Add (req.get "cpu")
                 limit := nm.cpu.limit.Add (limit.get "cpu") }
        memory := { nm.memory with
                    request := nm.memory.request.Add (req.get "memory")
                    limit := nm.memory.limit.Add (limit.get "memory") } }
    let s := podMetrics.Containers.foldl usageStep (pm, nm, cm)
    let pm := s.1
    let nm : nodeMetric := { s.2.1 with podMetrics := mapSet s.2.1.podMetrics key pm }
    { s.2.2 with
      podMetrics := mapSet s.2.2.podMetrics key pm
      nodeMetrics := mapSet s.2.2.nodeMetrics pod.Spec.NodeName nm }

def clusterMetric.addNodeMetric (cm : clusterMetric) (nm : nodeMetric) : clusterMetric :=
  { cm with cpu := cm.cpu.addMetric nm.cpu, memory := cm.memory.addMetric nm.memory }

/-! ## Rendering -/

section Rendering

variable (outOfRange : Float64 → Int)

/-- The local `utilPercent` of `resourceString`, before its conversion to int64. -/
def utilPercent (actual allocatable : Quantity) : Float64 :=
  if 0 < allocatable.MilliValue then
    Float64.mul
      (Float64.div (Float64.ofInt actual.MilliValue) (Float64.ofInt allocatable.MilliValue))
      (Float64.ofInt 100)
  else Float64.finite 0 0

def resourceString (actual allocatable : Quantity) (resourceType : String) : String :=
  if resourceType = "cpu" then
    fmtInt actual.MilliValue ++ "m (" ++
      fmtInt (Float64.toInt64 outOfRange (utilPercent actual allocatable)) ++ "%)"
  else
    fmtInt (Int.tdiv actual.Value 1048576) ++ "Mi (" ++
      fmtInt (Float64.toInt64 outOfRange (utilPercent actual allocatable)) ++ "%)"

def resourceMetric.requestString (rm : resourceMetric) : String :=
  if rm.resourceType = "memory" then
    if rm.request.Value = 0 then
      RedString (resourceString outOfRange rm.request rm.allocatable rm.resourceType)
    else if rm.limit.Value < rm.request.Value ∧ 0 < rm.limit.Value then
      RedString (resourceString outOfRange rm.request rm.allocatable rm.resourceType)
    else WhiteString (resourceString outOfRange rm.request rm.allocatable rm.resourceType)
  else if rm.resourceType = "cpu" then
    if rm.request.MilliValue = 0 then
      RedString (resourceString outOfRange rm.request rm.allocatable rm.resourceType)
    else if rm.limit.MilliValue < rm.request.MilliValue ∧ 0 < rm.limit.MilliValue then
      RedString (resourceString outOfRange rm.request rm.allocatable rm.resourceType)
    else WhiteString (resourceString outOfRange rm.request rm.allocatable rm.resourceType)
  else WhiteString (resourceString outOfRange rm.request rm.allocatable rm.resourceType)

def resourceMetric.limitString (rm : resourceMetric) : String :=
  if rm.limit.Value = 0 ∧ rm.limit.MilliValue = 0 then
    RedString (resourceString outOfRange rm.limit rm.allocatable rm.resourceType)
  else WhiteString (resourceString outOfRange rm.limit rm.allocatable rm.resourceType)

def resourceMetric.utilString (rm : resourceMetric) : String :=
  if rm.resourceType = "memory" then
    if rm.request.Value < rm.utilization.Value ∧ 0 < rm.request.Value then
      RedString (resourceString outOfRange rm.utilization rm.allocatable rm.resourceType)
    else WhiteString (resourceString outOfRange rm.utilization rm.allocatable rm.resourceType)
  else if rm.resourceType = "cpu" then
    if rm.request.MilliValue < rm.utilization.MilliValue ∧ 0 < rm.request.MilliValue then
      RedString (resourceString outOfRange rm.utilization rm.allocatable rm.resourceType)
    else WhiteString (resourceString outOfRange rm.utilization rm.allocatable rm.resourceType)
  else WhiteString (resourceString outOfRange rm.utilization rm.allocatable rm.resourceType)

/-- The closure returned by `valueFunction`; `none` is the nil function of a
resource type that is neither "cpu" nor "memory". -/
def resourceMetric.valueFunction (rm : resourceMetric) : Option (Quantity → String) :=
  if rm.resourceType = "cpu" then some (fun r => fmtInt r.MilliValue ++ "m")
  else if rm.resourceType = "memory" then
    some (fun r => fmtInt (Int.tdiv r.Value 1048576) ++ "Mi")
  else none

/-- The closure returned by `percentFunction`. -/
def resourceMetric.percentFunction (rm : resourceMetric) : Quantity → String :=
  fun r =>
    fmtInt (Float64.toInt64 outOfRange
      (Float64.mul
        (Float64.div (Float64.ofInt r.MilliValue) (Float64.ofInt rm.allocatable.MilliValue))
        (Float64.ofInt 100))) ++ "%"

end Rendering

/-- The figure of a quantity that the classification compares: milli-units for
"cpu", whole units (bytes) for "memory". -/
def compareValue (resourceType : String) (q : Quantity) : Int :=
  if resourceType = "cpu" then q.MilliValue else q.Value

/-! ## Sequences of attributions and sums over maps -/

/-- The total usage of one resource over the containers of a pod. -/
def usageSum (containers : List ContainerMetrics) (name : String) : Quantity :=
  ⟨(containers.map (fun c => (c.Usage.get name).nano)).sum⟩

/-- Attribution of a sequence of pods, one call of `addPodMetric` each, in order. -/
def addPodMetrics (cm : clusterMetric) (pods : List (Pod × PodMetrics)) : clusterMetric :=
  pods.foldl (fun c p => c.addPodMetric p.1 p.2) cm

/-- The sum of a figure over the values of a map. -/
def mapSum {α : Type} (f : α → Int) (m : List (String × α)) : Int :=
  (m.map (fun p => f p.2)).sum

/-- The keys of a map. -/
def mapKeys {α : Type} (m : List (String × α)) : List String := m.map Prod.fst

/-- The orphan term of the cluster total as the specification words it: the sum of
the requests for `name` of the pods whose node is not a key of `nodeMetrics`. -/
def orphanRequestSum (cm : clusterMetric) (pods : List (Pod × PodMetrics)) (name : String) :
    Int :=
  ((pods.filter (fun p => decide (p.1.Spec.NodeName ∉ mapKeys cm.nodeMetrics))).map
    (fun p => (p.1.requests.get name).nano)).sum

/-- The node invariant of the specification: each request and limit total of the
node is the sum of that figure over the pod metrics filed under the node. -/
def nodeSums (nm : nodeMetric) : Prop :=
  nm.cpu.request.nano = mapSum (fun p => p.cpu.request.nano) nm.podMetrics ∧
  nm.cpu.limit.nano = mapSum (fun p => p.cpu.limit.nano) nm.podMetrics ∧
  nm.memory.request.nano = mapSum (fun p => p.memory.request.nano) nm.podMetrics ∧
  nm.memory.limit.nano = mapSum (fun p => p.memory.limit.nano) nm.podMetrics

/-- The cluster invariant the code keeps: each request and limit total of the
cluster is the sum of that figure over the nodes. -/
def clusterSums (cm : clusterMetric) : Prop :=
  cm.cpu.request.nano = mapSum (fun n => n.cpu.request.nano) cm.nodeMetrics ∧
  cm.cpu.limit.nano = mapSum (fun n => n.cpu.limit.nano) cm.nodeMetrics ∧
  cm.memory.request.nano = mapSum (fun n => n.memory.request.nano) cm.nodeMetrics ∧
  cm.memory.limit.nano = mapSum (fun n => n.memory.limit.nano) cm.nodeMetrics

/-! ## Example inputs -/

/-- A cpu metric with request 0 and limit 7m. -/
def exRequestZero : resourceMetric :=
  ⟨"cpu", 0, 0, 0, Quantity.NewMilliQuantity 7⟩

/-- A cpu metric with request 10m and limit 5m. -/
def exRequestOverLimit : resourceMetric :=
  ⟨"cpu", 0, 0, Quantity.NewMilliQuantity 10, Quantity.NewMilliQuantity 5⟩

/-- A cpu metric with request 10m and no limit. -/
def exRequestNoLimit : resourceMetric :=
  ⟨"cpu", 0, 0, Quantity.NewMilliQuantity 10, 0⟩

/-- A cpu metric of a 2000m node: request 500m, limit 1000m, utilization 600m. -/
def exUtilCpu : resourceMetric :=
  ⟨"cpu", Quantity.NewMilliQuantity 2000, Quantity.NewMilliQuantity 600,
    Quantity.NewMilliQuantity 500, Quantity.NewMilliQuantity 1000⟩

/-- A memory metric of a 2048Mi node: request 512Mi, limit 1024Mi, utilization 600Mi. -/
def exUtilMemory : resourceMetric :=
  ⟨"memory", Quantity.NewQuantity 2147483648, Quantity.NewQuantity 629145600,
    Quantity.NewQuantity 536870912, Quantity.NewQuantity 1073741824⟩

/-- A cluster of one node, "node-1", with 2000m of cpu and 2048Mi of memory and
nothing attributed yet. -/
def exCluster : clusterMetric :=
  { cpu := ⟨"cpu", 0, 0, 0, 0⟩
    memory := ⟨"memory", 0, 0, 0, 0⟩
    nodeMetrics :=
      [("node-1",
        { cpu := ⟨"cpu", Quantity.NewMilliQuantity 2000, 0, 0, 0⟩
          memory := ⟨"memory", Quantity.NewQuantity 2147483648, 0, 0, 0⟩
          podMetrics := [] })]
    podMetrics := [] }

/-- The pod "c" of namespace "a-b" on "node-1", requesting 100m of cpu. -/
def exPodA : Pod :=
  { Name := "c", Namespace := "a-b", Spec := ⟨"node-1"⟩
    requests := [("cpu", Quantity.NewMilliQuantity 100)], limits := [] }

/-- The pod "b-c" of namespace "a" on "node-1", requesting 100m of cpu. -/
def exPodB : Pod :=
  { Name := "b-c", Namespace := "a", Spec := ⟨"node-1"⟩
    requests := [("cpu", Quantity.NewMilliQuantity 100)], limits := [] }

/-- The pod "c" of namespace "a-b" once more, now requesting 300m of cpu. -/
def exPodAgain : Pod :=
  { Name := "c", Namespace := "a-b", Spec := ⟨"node-1"⟩
    requests := [("cpu", Quantity.NewMilliQuantity 300)], limits := [] }

/-- A pod on a node that is not in the inventory, requesting 100m of cpu. -/
def exOrphan : Pod :=
  { Name := "lost", Namespace := "default", Spec := ⟨"node-9"⟩
    requests := [("cpu", Quantity.NewMilliQuantity 100)], limits := [] }

/-- Usage of one container: 600m of cpu and 600Mi of memory. -/
def exUsage : PodMetrics :=
  ⟨[⟨[("cpu", Quantity.NewMilliQuantity 600), ("memory", Quantity.NewQuantity 629145600)]⟩]⟩

/-! ## Further definitions: node folding, map equality, names -/

/-- One call of `addNodeMetric` for each node of a list, in order. -/
def addNodeMetrics (cm : clusterMetric) (nodes : List nodeMetric) : clusterMetric :=
  nodes.foldl (fun c n => c.addNodeMetric n) cm

/-- The utilization counterpart of `clusterSums`: each utilization total of the
cluster is the sum of that figure over the nodes. -/
def clusterUtilSums (cm : clusterMetric) : Prop :=
  cm.cpu.utilization.nano = mapSum (fun n => n.cpu.utilization.nano) cm.nodeMetrics ∧
  cm.memory.utilization.nano = mapSum (fun n => n.memory.utilization.nano) cm.nodeMetrics

/-- Two Go maps with the same contents: every key is bound in both to the same
value, or in neither.  (The order of an association list is not part of a map.) -/
def sameMap {α : Type} (m₁ m₂ : List (String × α)) : Prop :=
  ∀ k, m₁.lookup k = m₂.lookup k

/-- Two node metrics with the same totals and the same pod index. -/
def sameNode (n₁ n₂ : nodeMetric) : Prop :=
  n₁.cpu = n₂.cpu ∧ n₁.memory = n₂.memory ∧ sameMap n₁.podMetrics n₂.podMetrics

/-- The results of looking a node up in two clusters agree. -/
def sameNodeOption : Option nodeMetric → Option nodeMetric → Prop
  | some n₁, some n₂ => sameNode n₁ n₂
  | none, none => True
  | _, _ => False

/-- Two cluster metrics with the same totals, the same pod index and, under every
node name, the same node. -/
def sameCluster (c₁ c₂ : clusterMetric) : Prop :=
  c₁.cpu = c₂.cpu ∧ c₁.memory = c₂.memory ∧ sameMap c₁.podMetrics c₂.podMetrics ∧
  ∀ name, sameNodeOption (c₁.nodeMetrics.lookup name) (c₂.nodeMetrics.lookup name)

/-- A lower-case letter or a digit. -/
def isLowerAlphanumeric (c : Char) : Bool := c.isLower || c.isDigit

/-- A Kubernetes namespace name (DNS label): lower-case alphanumerics and '-',
beginning and ending with an alphanumeric, at most 63 characters. -/
def validNamespace (s : String) : Bool :=
  s.data.all (fun c => isLowerAlphanumeric c || c == '-') &&
  (s.data.head?.map isLowerAlphanumeric).getD false &&
  (s.data.getLast?.map isLowerAlphanumeric).getD false &&
  decide (s.data.length ≤ 63)

/-- A Kubernetes pod name (DNS subdomain): lower-case alphanumerics, '-' and '.',
beginning and ending with an alphanumeric, at most 253 characters. -/
def validPodName (s : String) : Bool :=
  s.data.all (fun c => isLowerAlphanumeric c || c == '-' || c == '.') &&
  (s.data.head?.map isLowerAlphanumeric).getD false &&
  (s.data.getLast?.map isLowerAlphanumeric).getD false &&
  decide (s.data.length ≤ 253)

/-- The key of a pod as the specification words it: `namespace/name`. -/
def specKey (pod : Pod) : String := pod.Namespace ++ "/" ++ pod.Name

/-! ## Further example inputs -/

/-- A freshly seeded node with 2000m of cpu and 2048Mi of memory. -/
def exNode : nodeMetric :=
  { cpu := ⟨"cpu", Quantity.NewMilliQuantity 2000, 0, 0, 0⟩
    memory := ⟨"memory", Quantity.NewQuantity 2147483648, 0, 0, 0⟩
    podMetrics := [] }

/-- A second freshly seeded node with 4000m of cpu and 4096Mi of memory. -/
def exNodeLarge : nodeMetric :=
  { cpu := ⟨"cpu", Quantity.NewMilliQuantity 4000, 0, 0, 0⟩
    memory := ⟨"memory", Quantity.NewQuantity 4294967296, 0, 0, 0⟩
    podMetrics := [] }

/-- An all-zero cluster whose inventory is the one node "node-1". -/
def exZeroCluster : clusterMetric :=
  { cpu := ⟨"cpu", 0, 0, 0, 0⟩
    memory := ⟨"memory", 0, 0, 0, 0⟩
    nodeMetrics := [("node-1", exNode)]
    podMetrics := [] }

/-- The pod of the one-node scenario: cpu request 500m and limit 1000m, memory
request 512Mi and limit 1024Mi, on "node-1". -/
def exScenarioPod : Pod :=
  { Name := "web", Namespace := "default", Spec := ⟨"node-1"⟩
    requests :=
      [("cpu", Quantity.NewMilliQuantity 500), ("memory", Quantity.NewQuantity 536870912)]
    limits :=
      [("cpu", Quantity.NewMilliQuantity 1000), ("memory", Quantity.NewQuantity 1073741824)] }

/-- A metric whose allocatable is zero, as the one of an orphan pod. -/
def exNoAllocatable : resourceMetric := ⟨"cpu", 0, 0, 0, 0⟩

/-! ## Quantities -/

open Quantity

theorem Quantity.MilliValue_eq_zero_iff (q : Quantity) : q.MilliValue = 0 ↔ q.nano = 0 := by
  unfold MilliValue divAway
  split <;> omega

theorem Quantity.MilliValue_pos_iff (q : Quantity) : 0 < q.MilliValue ↔ 0 < q.nano := by
  unfold MilliValue divAway
  split <;> omega

theorem Quantity.Value_eq_zero_iff (q : Quantity) : q.Value = 0 ↔ q.nano = 0 := by
  unfold Value divAway
  split <;> omega

theorem Quantity.Value_pos_iff (q : Quantity) : 0 < q.Value ↔ 0 < q.nano := by
  unfold Value divAway
  split <;> omega

theorem Quantity.MilliValue_NewMilliQuantity (m : Int) : (NewMilliQuantity m).MilliValue = m := by
  unfold MilliValue divAway NewMilliQuantity
  simp only
  split <;> omega

theorem Quantity.Value_NewQuantity (v : Int) : (NewQuantity v).Value = v := by
  unfold Value divAway NewQuantity
  simp only
  split <;> omega

theorem RedString_ne_WhiteString (a b : String) : RedString a ≠ WhiteString b := by
  intro h
  have := congrArg String.data h
  simp [RedString, WhiteString, String.data_append] at this

theorem memory_ne_cpu : ¬ ("memory" = "cpu") := by decide

theorem ite_Red_White (c : Prop) [Decidable c] (s : String) :
    ((if c then RedString s else WhiteString s) = RedString s ↔ c) ∧
    ((if c then RedString s else WhiteString s) = WhiteString s ↔ ¬ c) := by
  have hne := RedString_ne_WhiteString s s
  by_cases h : c
  · simp [h, hne]
  · simp [h, Ne.symm hne]

theorem requestString_cpu (outOfRange : Float64 → Int) (rm : resourceMetric)
    (hty : rm.resourceType = "cpu") :
    rm.requestString outOfRange =
      if rm.request.MilliValue = 0 ∨
          (rm.limit.MilliValue < rm.request.MilliValue ∧ 0 < rm.limit.MilliValue) then
        RedString (resourceString outOfRange rm.request rm.allocatable rm.resourceType)
      else WhiteString (resourceString outOfRange rm.request rm.allocatable rm.resourceType) := by
  have hm : ¬ (rm.resourceType = "memory") := by rw [hty]; decide
  unfold resourceMetric.requestString
  rw [if_neg hm, if_pos hty]
  by_cases h0 : rm.request.MilliValue = 0
  · simp [h0]
  · by_cases h1 : rm.limit.MilliValue < rm.request.MilliValue ∧ 0 < rm.limit.MilliValue
    · simp [h0, h1]
    · rw [if_neg h0, if_neg h1, if_neg (by tauto)]

theorem requestString_memory (outOfRange : Float64 → Int) (rm : resourceMetric)
    (hty : rm.resourceType = "memory") :
    rm.requestString outOfRange =
      if rm.request.Value = 0 ∨ (rm.limit.Value < rm.request.Value ∧ 0 < rm.limit.Value) then
        RedString (resourceString outOfRange rm.request rm.allocatable rm.resourceType)
      else WhiteString (resourceString outOfRange rm.request rm.allocatable rm.resourceType) := by
  unfold resourceMetric.requestString
  rw [if_pos hty]
  by_cases h0 : rm.request.Value = 0
  · simp [h0]
  · by_cases h1 : rm.limit.Value < rm.request.Value ∧ 0 < rm.limit.Value
    · simp [h0, h1]
    · rw [if_neg h0, if_neg h1, if_neg (by tauto)]

/-- C4: for a metric of type "cpu" or "memory", requestString renders its text in
red exactly when the request is zero, or the request exceeds the limit (compared
in milli-units for cpu, in bytes for memory) and the limit is positive; otherwise
it renders the text in white. -/
theorem requestString_flagged_iff (outOfRange : Float64 → Int) (rm : resourceMetric)
    (hty : rm.resourceType = "cpu" ∨ rm.resourceType = "memory") :
    (rm.requestString outOfRange
        = RedString (resourceString outOfRange rm.request rm.allocatable rm.resourceType) ↔
      (rm.request.nano = 0 ∨
        (compareValue rm.resourceType rm.limit < compareValue rm.resourceType rm.request ∧
          0 < rm.limit.nano))) ∧
    (rm.requestString outOfRange
        = WhiteString (resourceString outOfRange rm.request rm.allocatable rm.resourceType) ↔
      ¬ (rm.request.nano = 0 ∨
        (compareValue rm.resourceType rm.limit < compareValue rm.resourceType rm.request ∧
          0 < rm.limit.nano))) := by
  rcases hty with hty | hty
  · rw [requestString_cpu outOfRange rm hty, ← MilliValue_eq_zero_iff rm.request,
      ← MilliValue_pos_iff rm.limit]
    simp only [compareValue, if_pos hty]
    exact ite_Red_White _ _
  · have hc : ¬ (rm.resourceType = "cpu") := by rw [hty]; decide
    rw [requestString_memory outOfRange rm hty, ← Value_eq_zero_iff rm.request,
      ← Value_pos_iff rm.limit]
    simp only [compareValue, if_neg hc]
    exact ite_Red_White _ _

theorem utilString_eq (outOfRange : Float64 → Int) (rm : resourceMetric)
    (hty : rm.resourceType = "cpu" ∨ rm.resourceType = "memory") :
    rm.utilString outOfRange =
      if compareValue rm.resourceType rm.request < compareValue rm.resourceType rm.utilization ∧
          0 < compareValue rm.resourceType rm.request then
        RedString (resourceString outOfRange rm.utilization rm.allocatable rm.resourceType)
      else
        WhiteString (resourceString outOfRange rm.utilization rm.allocatable rm.resourceType) := by
  rcases hty with hty | hty
  · have hm : ¬ (rm.resourceType = "memory") := by rw [hty]; decide
    unfold resourceMetric.utilString compareValue
    simp only [if_neg hm, if_pos hty]
  · have hc : ¬ (rm.resourceType = "cpu") := by rw [hty]; decide
    unfold resourceMetric.utilString compareValue
    simp only [if_pos hty, if_neg hc]

theorem compareValue_pos_iff (resourceType : String) (q : Quantity) :
    0 < compareValue resourceType q ↔ 0 < q.nano := by
  unfold compareValue
  split
  · exact MilliValue_pos_iff q
  · exact Value_pos_iff q

/-- C5: for a metric of type "cpu" or "memory", utilString renders its text in red
exactly when the utilization exceeds the request (compared in milli-units for
cpu, in bytes for memory) and the request is positive; otherwise in white. -/
theorem utilString_flagged_iff (outOfRange : Float64 → Int) (rm : resourceMetric)
    (hty : rm.resourceType = "cpu" ∨ rm.resourceType = "memory") :
    (rm.utilString outOfRange
        = RedString (resourceString outOfRange rm.utilization rm.allocatable rm.resourceType) ↔
      (compareValue rm.resourceType rm.request < compareValue rm.resourceType rm.utilization ∧
        0 < rm.request.nano)) ∧
    (rm.utilString outOfRange
        = WhiteString (resourceString outOfRange rm.utilization rm.allocatable rm.resourceType) ↔
      ¬ (compareValue rm.resourceType rm.request < compareValue rm.resourceType rm.utilization ∧
        0 < rm.request.nano)) := by
  rw [utilString_eq outOfRange rm hty, ← compareValue_pos_iff rm.resourceType rm.request]
  exact ite_Red_White _ _

/-- Examples for C4: request 0 with limit 7m is red, request 10m with limit 5m is
red, request 10m without a limit is white. -/
theorem requestString_flagged_iff_witness :
    exRequestZero.requestString (fun _ => 0) = RedString "0m (0%)" ∧
    exRequestOverLimit.requestString (fun _ => 0) = RedString "10m (0%)" ∧
    exRequestNoLimit.requestString (fun _ => 0) = WhiteString "10m (0%)" :=
  ⟨((requestString_flagged_iff (fun _ => 0) exRequestZero (by decide)).1).2 (by decide),
   ((requestString_flagged_iff (fun _ => 0) exRequestOverLimit (by decide)).1).2 (by decide),
   ((requestString_flagged_iff (fun _ => 0) exRequestNoLimit (by decide)).2).2 (by decide)⟩

/-- Examples for C5: request 500m with utilization 600m, and request 512Mi with
utilization 600Mi, are red. -/
theorem utilString_flagged_iff_witness :
    exUtilCpu.utilString (fun _ => 0) = RedString "600m (30%)" ∧
    exUtilMemory.utilString (fun _ => 0) = RedString "600Mi (29%)" :=
  ⟨((utilString_flagged_iff (fun _ => 0) exUtilCpu (by decide)).1).2 (by decide),
   ((utilString_flagged_iff (fun _ => 0) exUtilMemory (by decide)).1).2 (by decide)⟩

/-- C6: limitString renders its text in red exactly when the limit is zero, and in
white otherwise; the test of the code, Value() == 0 and MilliValue() == 0, holds
exactly for the zero quantity. -/
theorem limitString_flagged_iff (outOfRange : Float64 → Int) (rm : resourceMetric) :
    (rm.limitString outOfRange
        = RedString (resourceString outOfRange rm.limit rm.allocatable rm.resourceType) ↔
      rm.limit.nano = 0) ∧
    (rm.limitString outOfRange
        = WhiteString (resourceString outOfRange rm.limit rm.allocatable rm.resourceType) ↔
      ¬ rm.limit.nano = 0) ∧
    ((rm.limit.Value = 0 ∧ rm.limit.MilliValue = 0) ↔ rm.limit.nano = 0) := by
  have hiff : (rm.limit.Value = 0 ∧ rm.limit.MilliValue = 0) ↔ rm.limit.nano = 0 := by
    rw [Value_eq_zero_iff, MilliValue_eq_zero_iff]; exact and_self_iff
  refine ⟨?_, ?_, hiff⟩
  · unfold resourceMetric.limitString
    rw [← hiff]
    exact (ite_Red_White _ _).1
  · unfold resourceMetric.limitString
    rw [← hiff]
    exact (ite_Red_White _ _).2

/-- C7 (evaluation at the failing input): for 29m of 100m, resourceString renders
28%, because the float64 product (29 / 100) * 100 is 8162774324609023 * 2^(-48),
just below 29. -/
theorem resourceString_percent_29_of_100 (outOfRange : Float64 → Int) :
    resourceString outOfRange (NewMilliQuantity 29) (NewMilliQuantity 100) "cpu" = "29m (28%)" ∧
    utilPercent (NewMilliQuantity 29) (NewMilliQuantity 100)
      = Float64.finite 8162774324609023 (-48) :=
  ⟨rfl, by decide⟩

theorem Float64.bitLength_zero (fuel : Nat) : Float64.bitLength fuel 0 = 0 := by
  cases fuel <;> simp [Float64.bitLength]

theorem Float64.pow_bitLength_le (fuel n : Nat) (hn : 0 < n) (hf : n ≤ fuel) :
    2 ^ (Float64.bitLength fuel n - 1) ≤ n ∧ 0 < Float64.bitLength fuel n := by
  induction fuel generalizing n with
  | zero => omega
  | succ f ih =>
    have hne : ¬ n = 0 := by omega
    simp only [Float64.bitLength, if_neg hne, Nat.add_sub_cancel]
    refine ⟨?_, by omega⟩
    by_cases h2 : n / 2 = 0
    · rw [h2, Float64.bitLength_zero]; simpa using hn
    · have hpos : 0 < n / 2 := Nat.pos_of_ne_zero h2
      obtain ⟨h1, h3⟩ := ih (n / 2) hpos (by omega)
      have : 2 ^ (Float64.bitLength f (n / 2)) = 2 * 2 ^ (Float64.bitLength f (n / 2) - 1) := by
        rw [← pow_succ']
        congr 1
        omega
      rw [this]
      omega

theorem Float64.round_ne_zero (negative : Bool) (n : Nat) (hn : 0 < n) (e : Int) :
    Float64.round negative n 1 ≠ Float64.finite 0 e := by
  have hb1 : Float64.bitLength 1 1 = 1 := by decide
  obtain ⟨hle, hbpos⟩ := Float64.pow_bitLength_le n n hn le_rfl
  have hne : ¬ (n = 0 ∨ 1 = 0) := by omega
  unfold Float64.round
  rw [if_neg hne, hb1]
  simp only [one_mul]
  generalize hk0 : max ((Float64.bitLength n n : Int) - ((1 : Nat) : Int) - 53) (-1074) = k0
  -- the significand before rounding is at least one
  have hND : 2 ^ k0.toNat ≤ n * 2 ^ (-k0).toNat := by
    by_cases hk : k0 ≤ 0
    · have : k0.toNat = 0 := by omega
      rw [this]
      have : 0 < 2 ^ (-k0).toNat := pow_pos (by norm_num) _
      calc 2 ^ 0 = 1 := rfl
        _ ≤ n * 1 := by omega
        _ ≤ n * 2 ^ (-k0).toNat := Nat.mul_le_mul_left _ this
    · have h1 : (-k0).toNat = 0 := by omega
      rw [h1, pow_zero, mul_one]
      have h2 : k0.toNat ≤ Float64.bitLength n n - 1 := by omega
      exact le_trans (Nat.pow_le_pow_right (by norm_num) h2) hle
  generalize n * 2 ^ (-k0).toNat = N at hND ⊢
  generalize hD : 2 ^ k0.toNat = D at hND ⊢
  have hDpos : 0 < D := by rw [← hD]; exact pow_pos (by norm_num) _
  have hq : 0 < N / (if 2 ^ 53 ≤ N / D then 2 * D else D) := by
    split
    · rename_i h
      have : N / (2 * D) = N / D / 2 := by rw [Nat.mul_comm, Nat.div_div_eq_div_mul]
      rw [this]
      omega
    · exact Nat.div_pos hND hDpos
  generalize N / (if 2 ^ 53 ≤ N / D then 2 * D else D) = q at hq
  generalize N % (if 2 ^ 53 ≤ N / D then 2 * D else D) = r
  generalize (if 2 ^ 53 ≤ N / D then 2 * D else D) = D1
  generalize (if 2 ^ 53 ≤ N / D then k0 + 1 else k0) = k
  have hq1 : 0 < (if D1 < 2 * r ∨ (2 * r = D1 ∧ q % 2 = 1) then q + 1 else q) := by
    split <;> omega
  generalize (if D1 < 2 * r ∨ (2 * r = D1 ∧ q % 2 = 1) then q + 1 else q) = q1 at hq1
  intro h
  split at h
  · cases h
  · injection h with hm _
    split at hm <;> omega

theorem Float64.ofInt_ne_zero (i : Int) (hi : 0 < i) (e : Int) :
    Float64.ofInt i ≠ Float64.finite 0 e :=
  Float64.round_ne_zero _ i.natAbs (by omega) e

theorem Float64.toInt64_zero (outOfRange : Float64 → Int) :
    Float64.toInt64 outOfRange (Float64.finite 0 0) = 0 := rfl

theorem utilPercent_zero_allocatable (q : Quantity) : utilPercent q 0 = Float64.finite 0 0 := by
  unfold utilPercent
  rw [if_neg (by decide)]

theorem resourceString_zero_allocatable (outOfRange : Float64 → Int) (q : Quantity)
    (resourceType : String) :
    resourceString outOfRange q 0 resourceType =
      (if resourceType = "cpu" then fmtInt q.MilliValue ++ "m"
        else fmtInt (Int.tdiv q.Value 1048576) ++ "Mi") ++ " (0%)" := by
  unfold resourceString
  rw [utilPercent_zero_allocatable, Float64.toInt64_zero]
  have h0 : fmtInt 0 = "0" := by decide
  rw [h0]
  split
  · simp only [String.append_assoc]
    rfl
  · simp only [String.append_assoc]
    rfl

theorem requestString_cases (outOfRange : Float64 → Int) (rm : resourceMetric) :
    rm.requestString outOfRange
        = RedString (resourceString outOfRange rm.request rm.allocatable rm.resourceType) ∨
    rm.requestString outOfRange
        = WhiteString (resourceString outOfRange rm.request rm.allocatable rm.resourceType) := by
  unfold resourceMetric.requestString
  split_ifs <;> simp

theorem limitString_cases (outOfRange : Float64 → Int) (rm : resourceMetric) :
    rm.limitString outOfRange
        = RedString (resourceString outOfRange rm.limit rm.allocatable rm.resourceType) ∨
    rm.limitString outOfRange
        = WhiteString (resourceString outOfRange rm.limit rm.allocatable rm.resourceType) := by
  unfold resourceMetric.limitString
  split_ifs <;> simp

theorem utilString_cases (outOfRange : Float64 → Int) (rm : resourceMetric) :
    rm.utilString outOfRange
        = RedString (resourceString outOfRange rm.utilization rm.allocatable rm.resourceType) ∨
    rm.utilString outOfRange
        = WhiteString (resourceString outOfRange rm.utilization rm.allocatable rm.resourceType) := by
  unfold resourceMetric.utilString
  split_ifs <;> simp

/-- C8: with allocatable zero the percentage is the constant 0 that utilPercent
starts from and the output of resourceString ends with " (0%)"; whenever
resourceString does divide, its divisor is a non-zero float64; and requestString,
limitString and utilString of a metric with allocatable zero all render a text
ending with " (0%)". -/
theorem resourceString_no_division_by_zero (outOfRange : Float64 → Int) :
    (∀ (q : Quantity) (resourceType : String),
      utilPercent q 0 = Float64.finite 0 0 ∧
      ∃ value, resourceString outOfRange q 0 resourceType = value ++ " (0%)") ∧
    (∀ actual allocatable : Quantity,
      (¬ 0 < allocatable.MilliValue ∧ utilPercent actual allocatable = Float64.finite 0 0) ∨
      (utilPercent actual allocatable
          = Float64.mul (Float64.div (Float64.ofInt actual.MilliValue)
              (Float64.ofInt allocatable.MilliValue)) (Float64.ofInt 100) ∧
        ∀ e, Float64.ofInt allocatable.MilliValue ≠ Float64.finite 0 e)) ∧
    (∀ (resourceType : String) (utilization request limit : Quantity),
      ∃ r l u,
        (resourceMetric.requestString outOfRange ⟨resourceType, 0, utilization, request, limit⟩
            = RedString (r ++ " (0%)") ∨
          resourceMetric.requestString outOfRange ⟨resourceType, 0, utilization, request, limit⟩
            = WhiteString (r ++ " (0%)")) ∧
        (resourceMetric.limitString outOfRange ⟨resourceType, 0, utilization, request, limit⟩
            = RedString (l ++ " (0%)") ∨
          resourceMetric.limitString outOfRange ⟨resourceType, 0, utilization, request, limit⟩
            = WhiteString (l ++ " (0%)")) ∧
        (resourceMetric.utilString outOfRange ⟨resourceType, 0, utilization, request, limit⟩
            = RedString (u ++ " (0%)") ∨
          resourceMetric.utilString outOfRange ⟨resourceType, 0, utilization, request, limit⟩
            = WhiteString (u ++ " (0%)"))) := by
  refine ⟨fun q ty => ⟨utilPercent_zero_allocatable q, _,
      resourceString_zero_allocatable outOfRange q ty⟩, ?_, ?_⟩
  · intro actual allocatable
    by_cases h : 0 < allocatable.MilliValue
    · right
      refine ⟨?_, fun e => Float64.ofInt_ne_zero _ h e⟩
      unfold utilPercent
      rw [if_pos h]
    · left
      refine ⟨h, ?_⟩
      unfold utilPercent
      rw [if_neg h]
  · intro ty u r l
    have hr := requestString_cases outOfRange ⟨ty, 0, u, r, l⟩
    have hl := limitString_cases outOfRange ⟨ty, 0, u, r, l⟩
    have hu := utilString_cases outOfRange ⟨ty, 0, u, r, l⟩
    simp only [resourceString_zero_allocatable] at hr hl hu
    exact ⟨_, _, _, hr, hl, hu⟩

theorem fmtInt_ofNat (n : Nat) : fmtInt (n : Int) = toString n := rfl

/-- C9: for a memory metric the function returned by valueFunction renders a
quantity of b whole bytes as the decimal numeral of b / 1048576 followed by "Mi",
and the output of resourceString begins with that string followed by " ("; for a
cpu metric it renders a quantity of m milli-units as the numeral of m followed by
"m". -/
theorem valueFunction_renders (rm : resourceMetric) :
    (rm.resourceType = "memory" → ∀ b : Nat,
      (∃ f, rm.valueFunction = some f ∧
        f (NewQuantity b) = toString (b / 1048576) ++ "Mi") ∧
      ∀ (outOfRange : Float64 → Int) (allocatable : Quantity), ∃ rest,
        resourceString outOfRange (NewQuantity b) allocatable rm.resourceType
          = toString (b / 1048576) ++ "Mi" ++ " (" ++ rest) ∧
    (rm.resourceType = "cpu" → ∀ m : Int,
      ∃ f, rm.valueFunction = some f ∧ f (NewMilliQuantity m) = toString m ++ "m") := by
  constructor
  · intro hty b
    have hc : ¬ (rm.resourceType = "cpu") := by rw [hty]; decide
    have hdiv : Int.tdiv ((b : Nat) : Int) 1048576 = ((b / 1048576 : Nat) : Int) := by
      rw [Int.tdiv_eq_ediv (by omega) (by omega)]; rfl
    constructor
    · refine ⟨_, by unfold resourceMetric.valueFunction; rw [if_neg hc, if_pos hty], ?_⟩
      simp only [Value_NewQuantity, hdiv, fmtInt_ofNat]
    · intro outOfRange allocatable
      unfold resourceString
      rw [if_neg hc]
      simp only [Value_NewQuantity, hdiv, fmtInt_ofNat]
      refine ⟨fmtInt (Float64.toInt64 outOfRange (utilPercent (NewQuantity b) allocatable)) ++ "%)", ?_⟩
      simp only [String.append_assoc]
      rfl
  · intro hty m
    refine ⟨_, by unfold resourceMetric.valueFunction; rw [if_pos hty], ?_⟩
    simp only [MilliValue_NewMilliQuantity]
    rfl

/-- Examples for C9: 1048575 bytes render as "0Mi", 1048576 bytes as "1Mi", and
250 milli-units as "250m". -/
theorem valueFunction_renders_witness :
    (∃ f, resourceMetric.valueFunction ⟨"memory", 0, 0, 0, 0⟩ = some f ∧
      f (NewQuantity 1048575) = "0Mi" ∧ f (NewQuantity 1048576) = "1Mi") ∧
    (∃ f, resourceMetric.valueFunction ⟨"cpu", 0, 0, 0, 0⟩ = some f ∧
      f (NewMilliQuantity 250) = "250m") := by
  obtain ⟨⟨f, hf, h1⟩, _⟩ :=
    (valueFunction_renders ⟨"memory", 0, 0, 0, 0⟩).1 rfl 1048575
  obtain ⟨⟨g, hg, h2⟩, _⟩ :=
    (valueFunction_renders ⟨"memory", 0, 0, 0, 0⟩).1 rfl 1048576
  obtain ⟨c, hc, h3⟩ := (valueFunction_renders ⟨"cpu", 0, 0, 0, 0⟩).2 rfl 250
  rw [hf] at hg
  cases hg
  exact ⟨⟨f, hf, h1, h2⟩, ⟨c, hc, h3⟩⟩


/-! ## Maps -/

theorem lookup_mapSet_self {α : Type} (m : List (String × α)) (k : String) (v : α) :
    (mapSet m k v).lookup k = some v := by
  induction m with
  | nil => simp [mapSet, List.lookup]
  | cons p m ih =>
    obtain ⟨k', w⟩ := p
    by_cases h : k' = k
    · simp [mapSet, h, List.lookup]
    · have h' : (k == k') = false := by simpa using fun e => h e.symm
      simp [mapSet, h, List.lookup, h', ih]

theorem lookup_mapSet_of_ne {α : Type} (m : List (String × α)) (k k' : String) (v : α)
    (h : k' ≠ k) : (mapSet m k v).lookup k' = m.lookup k' := by
  induction m with
  | nil =>
    have h' : (k' == k) = false := by simpa using h
    simp [mapSet, List.lookup, h']
  | cons p m ih =>
    obtain ⟨k1, w⟩ := p
    by_cases h1 : k1 = k
    · subst h1
      have h' : (k' == k1) = false := by simpa using h
      simp [mapSet, List.lookup, h']
    · simp only [mapSet, if_neg h1, List.lookup, ih]

theorem lookup_eq_none_of_not_mem {α : Type} (m : List (String × α)) (k : String)
    (h : k ∉ mapKeys m) : m.lookup k = none := by
  induction m with
  | nil => rfl
  | cons p m ih =>
    obtain ⟨k', w⟩ := p
    simp only [mapKeys, List.map_cons, List.mem_cons, not_or] at h
    have h' : (k == k') = false := by simpa using h.1
    simp only [List.lookup, h']
    exact ih h.2

theorem mem_of_lookup_eq_some {α : Type} (m : List (String × α)) (k : String) (v : α)
    (h : m.lookup k = some v) : (k, v) ∈ m := by
  induction m with
  | nil => simp [List.lookup] at h
  | cons p m ih =>
    obtain ⟨k', w⟩ := p
    by_cases hk : k = k'
    · subst hk
      simp [List.lookup] at h
      simp [h]
    · have h' : (k == k') = false := by simpa using hk
      simp only [List.lookup, h'] at h
      exact List.mem_cons_of_mem _ (ih h)

theorem mem_mapKeys_of_lookup {α : Type} (m : List (String × α)) (k : String) (v : α)
    (h : m.lookup k = some v) : k ∈ mapKeys m :=
  List.mem_map.2 ⟨(k, v), mem_of_lookup_eq_some m k v h, rfl⟩

theorem lookup_isSome_of_mem {α : Type} (m : List (String × α)) (k : String)
    (h : k ∈ mapKeys m) : ∃ v, m.lookup k = some v := by
  cases hl : m.lookup k with
  | some v => exact ⟨v, rfl⟩
  | none =>
    exfalso
    induction m with
    | nil => simp [mapKeys] at h
    | cons p m ih =>
      obtain ⟨k', w⟩ := p
      by_cases hk : k = k'
      · subst hk; simp [List.lookup] at hl
      · have h' : (k == k') = false := by simpa using hk
        simp only [List.lookup, h'] at hl
        simp only [mapKeys, List.map_cons, List.mem_cons] at h
        rcases h with h | h
        · exact hk h
        · exact ih h hl

theorem mem_mapSet {α : Type} (m : List (String × α)) (k : String) (v : α) (x : String × α)
    (h : x ∈ mapSet m k v) : x ∈ m ∨ x = (k, v) := by
  induction m with
  | nil => simpa [mapSet] using h
  | cons p m ih =>
    obtain ⟨k', w⟩ := p
    by_cases hk : k' = k
    · simp only [mapSet, if_pos hk, List.mem_cons] at h
      rcases h with h | h
      · exact Or.inr h
      · exact Or.inl (List.mem_cons_of_mem _ h)
    · simp only [mapSet, if_neg hk, List.mem_cons] at h
      rcases h with h | h
      · exact Or.inl (h ▸ List.mem_cons_self _ _)
      · rcases ih h with h | h
        · exact Or.inl (List.mem_cons_of_mem _ h)
        · exact Or.inr h

theorem mapKeys_mapSet_of_mem {α : Type} (m : List (String × α)) (k : String) (v : α)
    (h : k ∈ mapKeys m) : mapKeys (mapSet m k v) = mapKeys m := by
  induction m with
  | nil => simp [mapKeys] at h
  | cons p m ih =>
    obtain ⟨k', w⟩ := p
    by_cases hk : k' = k
    · simp [mapSet, hk, mapKeys]
    · simp only [mapKeys, List.map_cons, List.mem_cons] at h
      have hm : k ∈ mapKeys m := by
        rcases h with h | h
        · exact absurd h.symm hk
        · exact h
      have := ih hm
      simp only [mapKeys] at this
      simp [mapSet, hk, mapKeys, this]

theorem mapKeys_mapSet_of_not_mem {α : Type} (m : List (String × α)) (k : String) (v : α)
    (h : k ∉ mapKeys m) : mapKeys (mapSet m k v) = mapKeys m ++ [k] := by
  induction m with
  | nil => simp [mapSet, mapKeys]
  | cons p m ih =>
    obtain ⟨k', w⟩ := p
    simp only [mapKeys, List.map_cons, List.mem_cons, not_or] at h
    have hk : ¬ k' = k := fun e => h.1 e.symm
    have := ih h.2
    simp only [mapKeys] at this
    simp [mapSet, hk, mapKeys, this]

theorem mapSum_mapSet_of_lookup {α : Type} (f : α → Int) (m : List (String × α)) (k : String)
    (v w : α) (h : m.lookup k = some w) :
    mapSum f (mapSet m k v) = mapSum f m - f w + f v := by
  induction m with
  | nil => simp [List.lookup] at h
  | cons p m ih =>
    obtain ⟨k', w'⟩ := p
    by_cases hk : k' = k
    · subst hk
      simp [List.lookup] at h
      subst h
      simp [mapSet, mapSum]
      ring
    · have h' : (k == k') = false := by simpa using fun e => hk e.symm
      simp only [List.lookup, h'] at h
      have := ih h
      simp only [mapSum] at this
      simp only [mapSet, if_neg hk, mapSum, List.map_cons, List.sum_cons, this]
      ring

theorem mapSum_mapSet_of_not_mem {α : Type} (f : α → Int) (m : List (String × α)) (k : String)
    (v : α) (h : k ∉ mapKeys m) : mapSum f (mapSet m k v) = mapSum f m + f v := by
  induction m with
  | nil => simp [mapSet, mapSum]
  | cons p m ih =>
    obtain ⟨k', w⟩ := p
    simp only [mapKeys, List.map_cons, List.mem_cons, not_or] at h
    have hk : ¬ k' = k := fun e => h.1 e.symm
    have := ih h.2
    simp only [mapSum] at this
    simp only [mapSet, if_neg hk, mapSum, List.map_cons, List.sum_cons, this]
    ring

/-! ## The loop over the containers -/

theorem Quantity.Add_assoc (a b c : Quantity) : (a.Add b).Add c = a.Add (b.Add c) := by
  simp [Quantity.Add, add_assoc]

theorem Quantity.Add_zero (a : Quantity) : a.Add 0 = a := by
  cases a
  show Quantity.mk _ = _
  simp
  rfl

theorem usageSum_nil (name : String) : usageSum [] name = 0 := rfl

theorem usageSum_cons (c : ContainerMetrics) (cs : List ContainerMetrics) (name : String) :
    usageSum (c :: cs) name = (c.Usage.get name).Add (usageSum cs name) := by
  simp [usageSum, Quantity.Add]

theorem foldl_usageStepOrphan (cs : List ContainerMetrics) (pm : podMetric) :
    cs.foldl usageStepOrphan pm =
      { pm with
        cpu := { pm.cpu with utilization := pm.cpu.utilization.Add (usageSum cs "cpu") }
        memory :=
          { pm.memory with utilization := pm.memory.utilization.Add (usageSum cs "memory") } } := by
  induction cs generalizing pm with
  | nil => simp [usageSum_nil, Quantity.Add_zero]
  | cons c cs ih =>
    rw [List.foldl_cons, ih]
    simp [usageStepOrphan, addUsage, usageSum_cons, Quantity.Add_assoc]

theorem foldl_usageStep (cs : List ContainerMetrics) (pm : podMetric) (nm : nodeMetric)
    (cm : clusterMetric) :
    cs.foldl usageStep (pm, nm, cm) =
      (cs.foldl usageStepOrphan pm,
       { nm with
         cpu := { nm.cpu with utilization := nm.cpu.utilization.Add (usageSum cs "cpu") }
         memory :=
           { nm.memory with utilization := nm.memory.utilization.Add (usageSum cs "memory") } },
       { cm with
         cpu := { cm.cpu with utilization := cm.cpu.utilization.Add (usageSum cs "cpu") }
         memory :=
           { cm.memory with utilization := cm.memory.utilization.Add (usageSum cs "memory") } }) := by
  induction cs generalizing pm nm cm with
  | nil => simp [usageSum_nil, Quantity.Add_zero]
  | cons c cs ih =>
    rw [List.foldl_cons]
    simp only [usageStep]
    rw [ih]
    simp [addUsage, usageSum_cons, Quantity.Add_assoc]

theorem Quantity.zero_Add (a : Quantity) : (0 : Quantity).Add a = a := by
  cases a
  show Quantity.mk _ = _
  simp
  rfl

/-! ## The two cases of addPodMetric -/

/-- The pod metric that `addPodMetric` files for `pod`, given the allocatable
figures it copies (zero for an orphan) and the usage samples. -/
theorem foldl_usageStepOrphan_new (pod : Pod) (cs : List ContainerMetrics)
    (cpuAllocatable memoryAllocatable : Quantity) :
    cs.foldl usageStepOrphan
        { newPodMetric pod with
          cpu := { (newPodMetric pod).cpu with allocatable := cpuAllocatable }
          memory := { (newPodMetric pod).memory with allocatable := memoryAllocatable } } =
      { name := pod.Name
        namespace_ := pod.Namespace
        cpu := ⟨"cpu", cpuAllocatable, usageSum cs "cpu", pod.requests.get "cpu",
          pod.limits.get "cpu"⟩
        memory := ⟨"memory", memoryAllocatable, usageSum cs "memory",
          pod.requests.get "memory", pod.limits.get "memory"⟩ } := by
  rw [foldl_usageStepOrphan]
  simp [newPodMetric, Quantity.zero_Add]

theorem addPodMetric_of_lookup_none (cm : clusterMetric) (pod : Pod) (podMetrics : PodMetrics)
    (h : cm.nodeMetrics.lookup pod.Spec.NodeName = none) :
    cm.addPodMetric pod podMetrics =
      { cm with
        podMetrics := mapSet cm.podMetrics (podKey pod)
          { name := pod.Name
            namespace_ := pod.Namespace
            cpu := ⟨"cpu", 0, usageSum podMetrics.Containers "cpu", pod.requests.get "cpu",
              pod.limits.get "cpu"⟩
            memory := ⟨"memory", 0, usageSum podMetrics.Containers "memory",
              pod.requests.get "memory", pod.limits.get "memory"⟩ } } := by
  unfold clusterMetric.addPodMetric
  simp only [h]
  have := foldl_usageStepOrphan_new pod podMetrics.Containers 0 0
  simp only [newPodMetric] at this ⊢
  rw [this]

theorem addPodMetric_of_lookup_some (cm : clusterMetric) (pod : Pod) (podMetrics : PodMetrics)
    (nm : nodeMetric) (h : cm.nodeMetrics.lookup pod.Spec.NodeName = some nm) :
    cm.addPodMetric pod podMetrics =
      { cpu :=
          { cm.cpu with
            request := cm.cpu.request.Add (pod.requests.get "cpu")
            limit := cm.cpu.limit.Add (pod.limits.get "cpu")
            utilization := cm.cpu.utilization.Add (usageSum podMetrics.Containers "cpu") }
        memory :=
          { cm.memory with
            request := cm.memory.request.Add (pod.requests.get "memory")
            limit := cm.memory.limit.Add (pod.limits.get "memory")
            utilization :=
              cm.memory.utilization.Add (usageSum podMetrics.Containers "memory") }
        podMetrics := mapSet cm.podMetrics (podKey pod)
          { name := pod.Name
            namespace_ := pod.Namespace
            cpu := ⟨"cpu", nm.cpu.allocatable, usageSum podMetrics.Containers "cpu",
              pod.requests.get "cpu", pod.limits.get "cpu"⟩
            memory := ⟨"memory", nm.memory.allocatable,
              usageSum podMetrics.Containers "memory", pod.requests.get "memory",
              pod.limits.get "memory"⟩ }
        nodeMetrics := mapSet cm.nodeMetrics pod.Spec.NodeName
          { cpu :=
              { nm.cpu with
                request := nm.cpu.request.Add (pod.requests.get "cpu")
                limit := nm.cpu.limit.Add (pod.limits.get "cpu")
                utilization := nm.cpu.utilization.Add (usageSum podMetrics.Containers "cpu") }
            memory :=
              { nm.memory with
                request := nm.memory.request.Add (pod.requests.get "memory")
                limit := nm.memory.limit.Add (pod.limits.get "memory")
                utilization :=
                  nm.memory.utilization.Add (usageSum podMetrics.Containers "memory") }
            podMetrics := mapSet nm.podMetrics (podKey pod)
              { name := pod.Name
                namespace_ := pod.Namespace
                cpu := ⟨"cpu", nm.cpu.allocatable, usageSum podMetrics.Containers "cpu",
                  pod.requests.get "cpu", pod.limits.get "cpu"⟩
                memory := ⟨"memory", nm.memory.allocatable,
                  usageSum podMetrics.Containers "memory", pod.requests.get "memory",
                  pod.limits.get "memory"⟩ } } } := by
  unfold clusterMetric.addPodMetric
  simp only [h]
  rw [foldl_usageStep]
  have := foldl_usageStepOrphan_new pod podMetrics.Containers nm.cpu.allocatable
    nm.memory.allocatable
  simp only [newPodMetric] at this ⊢
  rw [this]

/-! ## Attribution -/

theorem addPodMetric_clusterSums (cm : clusterMetric) (pod : Pod) (podMetrics : PodMetrics)
    (h : clusterSums cm) : clusterSums (cm.addPodMetric pod podMetrics) := by
  cases hl : cm.nodeMetrics.lookup pod.Spec.NodeName with
  | none =>
    rw [addPodMetric_of_lookup_none cm pod podMetrics hl]
    exact h
  | some nm =>
    rw [addPodMetric_of_lookup_some cm pod podMetrics nm hl]
    obtain ⟨h1, h2, h3, h4⟩ := h
    unfold clusterSums
    simp only [mapSum_mapSet_of_lookup _ _ _ _ _ hl, Quantity.Add]
    refine ⟨?_, ?_, ?_, ?_⟩ <;> omega

theorem addPodMetrics_clusterSums (cm : clusterMetric) (pods : List (Pod × PodMetrics))
    (h : clusterSums cm) : clusterSums (addPodMetrics cm pods) := by
  induction pods generalizing cm with
  | nil => exact h
  | cons p pods ih =>
    exact ih _ (addPodMetric_clusterSums cm p.1 p.2 h)

theorem mapSum_eq_zero {α : Type} (f : α → Int) (m : List (String × α))
    (h : ∀ p ∈ m, f p.2 = 0) : mapSum f m = 0 := by
  induction m with
  | nil => rfl
  | cons p m ih =>
    simp only [mapSum, List.map_cons, List.sum_cons]
    rw [h p (List.mem_cons_self _ _)]
    have := ih (fun q hq => h q (List.mem_cons_of_mem _ hq))
    simp only [mapSum] at this
    rw [this]
    rfl

theorem addPodMetric_nodeSums (cm : clusterMetric) (pod : Pod) (podMetrics : PodMetrics)
    (h : ∀ n ∈ cm.nodeMetrics, nodeSums n.2 ∧ podKey pod ∉ mapKeys n.2.podMetrics) :
    ∀ n ∈ (cm.addPodMetric pod podMetrics).nodeMetrics,
      nodeSums n.2 ∧
      ∀ k ∈ mapKeys n.2.podMetrics,
        k = podKey pod ∨ ∃ n' ∈ cm.nodeMetrics, k ∈ mapKeys n'.2.podMetrics := by
  cases hl : cm.nodeMetrics.lookup pod.Spec.NodeName with
  | none =>
    rw [addPodMetric_of_lookup_none cm pod podMetrics hl]
    intro n hn
    exact ⟨(h n hn).1, fun k hk => Or.inr ⟨n, hn, hk⟩⟩
  | some nm =>
    rw [addPodMetric_of_lookup_some cm pod podMetrics nm hl]
    intro n hn
    have hmem := mem_of_lookup_eq_some _ _ _ hl
    rcases mem_mapSet _ _ _ _ hn with hn | hn
    · exact ⟨(h n hn).1, fun k hk => Or.inr ⟨n, hn, hk⟩⟩
    · subst hn
      obtain ⟨⟨h1, h2, h3, h4⟩, hfresh⟩ := h _ hmem
      dsimp only at h1 h2 h3 h4 hfresh
      constructor
      · unfold nodeSums
        simp only [mapSum_mapSet_of_not_mem _ _ _ _ hfresh, Quantity.Add]
        refine ⟨?_, ?_, ?_, ?_⟩ <;> omega
      · intro k hk
        simp only [mapKeys_mapSet_of_not_mem _ _ _ hfresh, List.mem_append,
          List.mem_singleton] at hk
        rcases hk with hk | hk
        · exact Or.inr ⟨_, hmem, hk⟩
        · exact Or.inl hk

theorem addPodMetrics_nodeSums_aux (cm : clusterMetric) (pods : List (Pod × PodMetrics))
    (hk : (pods.map (fun p => podKey p.1)).Nodup)
    (h : ∀ n ∈ cm.nodeMetrics,
      nodeSums n.2 ∧ ∀ p ∈ pods, podKey p.1 ∉ mapKeys n.2.podMetrics) :
    ∀ n ∈ (addPodMetrics cm pods).nodeMetrics, nodeSums n.2 := by
  induction pods generalizing cm with
  | nil => exact fun n hn => (h n hn).1
  | cons p pods ih =>
    rw [List.map_cons, List.nodup_cons] at hk
    have hstep := addPodMetric_nodeSums cm p.1 p.2
      (fun n hn => ⟨(h n hn).1, (h n hn).2 p (List.mem_cons_self _ _)⟩)
    refine ih (cm.addPodMetric p.1 p.2) hk.2 (fun n hn => ⟨(hstep n hn).1, ?_⟩)
    intro q hq hmem
    rcases (hstep n hn).2 _ hmem with e | ⟨n', hn', hmem'⟩
    · exact hk.1 (List.mem_map.2 ⟨q, hq, e⟩)
    · exact (h n' hn').2 q (List.mem_cons_of_mem _ hq) hmem'

/-- Under pairwise distinct keys the node invariant holds: starting from nodes with
zero request and limit and no pods, after any sequence of attributions whose keys
`namespace-name` are pairwise distinct, every node's request and limit totals are
the sums over the pod metrics filed under it. -/
theorem addPodMetrics_nodeSums (cm : clusterMetric) (pods : List (Pod × PodMetrics))
    (h0 : ∀ n ∈ cm.nodeMetrics,
      n.2.cpu.request = 0 ∧ n.2.cpu.limit = 0 ∧ n.2.memory.request = 0 ∧
        n.2.memory.limit = 0 ∧ n.2.podMetrics = [])
    (hk : (pods.map (fun p => podKey p.1)).Nodup) :
    ∀ n ∈ (addPodMetrics cm pods).nodeMetrics, nodeSums n.2 := by
  refine addPodMetrics_nodeSums_aux cm pods hk (fun n hn => ?_)
  obtain ⟨h1, h2, h3, h4, h5⟩ := h0 n hn
  refine ⟨?_, fun p _ => by simp [h5, mapKeys]⟩
  unfold nodeSums
  rw [h1, h2, h3, h4, h5]
  exact ⟨rfl, rfl, rfl, rfl⟩

/-- C1 (evaluation at the failing input): the pods "a-b"/"c" and "a"/"b-c" have
different identities but the same key "a-b-c".  After both are attributed to
"node-1" of a fresh cluster, each requesting 100m of cpu, the node's cpu request is
200m while the only pod metric filed under the node carries 100m: the node total is
not the sum over its pod index. -/
theorem addPodMetrics_key_collision :
    (exPodA.Namespace, exPodA.Name) ≠ (exPodB.Namespace, exPodB.Name) ∧
    podKey exPodA = podKey exPodB ∧
    ((addPodMetrics exCluster [(exPodA, exUsage), (exPodB, exUsage)]).nodeMetrics.lookup
        "node-1").map
      (fun n => (n.cpu.request.nano, n.podMetrics.map (fun p => (p.1, p.2.cpu.request.nano))))
      = some (200000000, [("a-b-c", 100000000)]) := by
  decide

/-- C2 (counterexample): after one orphan pod requesting 100m of cpu is attributed
to a fresh cluster, the cluster's cpu request is still 0 and so is the sum over
the nodes, while the orphan term is 100m: the cluster total is not the node sum
plus the orphan requests. -/
theorem cluster_request_omits_orphan :
    (addPodMetrics exCluster [(exOrphan, exUsage)]).cpu.request.nano = 0 ∧
    mapSum (fun n => n.cpu.request.nano)
      (addPodMetrics exCluster [(exOrphan, exUsage)]).nodeMetrics = 0 ∧
    orphanRequestSum exCluster [(exOrphan, exUsage)] "cpu" = 100000000 ∧
    (addPodMetrics exCluster [(exOrphan, exUsage)]).cpu.request.nano ≠
      mapSum (fun n => n.cpu.request.nano)
          (addPodMetrics exCluster [(exOrphan, exUsage)]).nodeMetrics
        + orphanRequestSum exCluster [(exOrphan, exUsage)] "cpu" := by
  decide

/-- C2 (amended): starting from a cluster with zero request and limit whose nodes
have zero request and limit, after any sequence of addPodMetric calls the
cluster's cpu and memory request and limit each equal the sum of that figure over
the nodes of nodeMetrics; a pod whose node is not a key of nodeMetrics leaves the
cluster's cpu and memory metrics unchanged (nothing of an orphan is folded in). -/
theorem addPodMetrics_cluster_totals (cm : clusterMetric) (pods : List (Pod × PodMetrics))
    (hc : cm.cpu.request = 0 ∧ cm.cpu.limit = 0 ∧ cm.memory.request = 0 ∧ cm.memory.limit = 0)
    (hn : ∀ n ∈ cm.nodeMetrics,
      n.2.cpu.request = 0 ∧ n.2.cpu.limit = 0 ∧ n.2.memory.request = 0 ∧
        n.2.memory.limit = 0) :
    clusterSums (addPodMetrics cm pods) ∧
    ∀ (c : clusterMetric) (pod : Pod) (podMetrics : PodMetrics),
      pod.Spec.NodeName ∉ mapKeys c.nodeMetrics →
        (c.addPodMetric pod podMetrics).cpu = c.cpu ∧
        (c.addPodMetric pod podMetrics).memory = c.memory := by
  constructor
  · apply addPodMetrics_clusterSums
    obtain ⟨h1, h2, h3, h4⟩ := hc
    unfold clusterSums
    rw [h1, h2, h3, h4]
    rw [mapSum_eq_zero _ _ (fun p hp => by rw [(hn p hp).1]; rfl),
      mapSum_eq_zero _ _ (fun p hp => by rw [(hn p hp).2.1]; rfl),
      mapSum_eq_zero _ _ (fun p hp => by rw [(hn p hp).2.2.1]; rfl),
      mapSum_eq_zero _ _ (fun p hp => by rw [(hn p hp).2.2.2]; rfl)]
    exact ⟨rfl, rfl, rfl, rfl⟩
  · intro c pod podMetrics h
    rw [addPodMetric_of_lookup_none c pod podMetrics (lookup_eq_none_of_not_mem _ _ h)]
    exact ⟨rfl, rfl⟩

/-- Example for C2: the cluster sums after one pod on "node-1" and one orphan. -/
theorem addPodMetrics_cluster_totals_witness :
    clusterSums (addPodMetrics exCluster [(exPodA, exUsage), (exOrphan, exUsage)]) ∧
    (exCluster.addPodMetric exOrphan exUsage).cpu = exCluster.cpu :=
  ⟨(addPodMetrics_cluster_totals exCluster [(exPodA, exUsage), (exOrphan, exUsage)]
      (by decide) (by decide)).1,
   ((addPodMetrics_cluster_totals exCluster [] (by decide) (by decide)).2
      exCluster exOrphan exUsage (by decide)).1⟩

/-- C3 (counterexample): attributing a pod of the identity "a-b"/"c" a second time
returns normally, replaces the entry under the key (its cpu request goes from 100m
to 300m) and raises the cluster's cpu request from 100m to 400m. -/
theorem duplicate_pod_is_overwritten :
    (exPodAgain.Namespace, exPodAgain.Name) = (exPodA.Namespace, exPodA.Name) ∧
    podKey exPodAgain ∈ mapKeys (exCluster.addPodMetric exPodA exUsage).podMetrics ∧
    ((exCluster.addPodMetric exPodA exUsage).podMetrics.lookup "a-b-c").map
        (fun p => p.cpu.request.nano) = some 100000000 ∧
    (((exCluster.addPodMetric exPodA exUsage).addPodMetric exPodAgain exUsage).podMetrics.lookup
        "a-b-c").map (fun p => p.cpu.request.nano) = some 300000000 ∧
    (exCluster.addPodMetric exPodA exUsage).cpu.request.nano = 100000000 ∧
    ((exCluster.addPodMetric exPodA exUsage).addPodMetric exPodAgain exUsage).cpu.request.nano
      = 400000000 := by
  decide

/-- C3 (amended): addPodMetric makes no duplicate check and cannot fail.  For a
pod whose key is already present in cluster.podMetrics the key set of
cluster.podMetrics is unchanged and the entry under the key is replaced by the
newly built pod metric; when the pod's node is found, the pod's request and limit
are added to the cluster's and to the node's totals once more. -/
theorem addPodMetric_duplicate (cm : clusterMetric) (pod : Pod) (podMetrics : PodMetrics)
    (h : podKey pod ∈ mapKeys cm.podMetrics) :
    mapKeys (cm.addPodMetric pod podMetrics).podMetrics = mapKeys cm.podMetrics ∧
    (∃ pm, (cm.addPodMetric pod podMetrics).podMetrics.lookup (podKey pod) = some pm ∧
      pm.name = pod.Name ∧ pm.namespace_ = pod.Namespace ∧
      pm.cpu.request = pod.requests.get "cpu" ∧ pm.cpu.limit = pod.limits.get "cpu" ∧
      pm.memory.request = pod.requests.get "memory" ∧
      pm.memory.limit = pod.limits.get "memory" ∧
      pm.cpu.utilization = usageSum podMetrics.Containers "cpu" ∧
      pm.memory.utilization = usageSum podMetrics.Containers "memory") ∧
    ∀ nm, cm.nodeMetrics.lookup pod.Spec.NodeName = some nm →
      (cm.addPodMetric pod podMetrics).cpu.request = cm.cpu.request.Add (pod.requests.get "cpu") ∧
      (cm.addPodMetric pod podMetrics).cpu.limit = cm.cpu.limit.Add (pod.limits.get "cpu") ∧
      (cm.addPodMetric pod podMetrics).memory.request
        = cm.memory.request.Add (pod.requests.get "memory") ∧
      (cm.addPodMetric pod podMetrics).memory.limit
        = cm.memory.limit.Add (pod.limits.get "memory") ∧
      ∃ nm', (cm.addPodMetric pod podMetrics).nodeMetrics.lookup pod.Spec.NodeName = some nm' ∧
        nm'.cpu.request = nm.cpu.request.Add (pod.requests.get "cpu") ∧
        nm'.cpu.limit = nm.cpu.limit.Add (pod.limits.get "cpu") ∧
        nm'.memory.request = nm.memory.request.Add (pod.requests.get "memory") ∧
        nm'.memory.limit = nm.memory.limit.Add (pod.limits.get "memory") := by
  cases hl : cm.nodeMetrics.lookup pod.Spec.NodeName with
  | none =>
    rw [addPodMetric_of_lookup_none cm pod podMetrics hl]
    refine ⟨mapKeys_mapSet_of_mem _ _ _ h, ⟨_, lookup_mapSet_self _ _ _, ?_⟩, ?_⟩
    · exact ⟨rfl, rfl, rfl, rfl, rfl, rfl, rfl, rfl⟩
    · intro nm hnm; cases hnm
  | some nm =>
    rw [addPodMetric_of_lookup_some cm pod podMetrics nm hl]
    refine ⟨mapKeys_mapSet_of_mem _ _ _ h, ⟨_, lookup_mapSet_self _ _ _, ?_⟩, ?_⟩
    · exact ⟨rfl, rfl, rfl, rfl, rfl, rfl, rfl, rfl⟩
    · intro nm1 hnm
      cases hnm
      exact ⟨rfl, rfl, rfl, rfl, _, lookup_mapSet_self _ _ _, rfl, rfl, rfl, rfl⟩

/-- Example for C3: the second attribution of "a-b"/"c" keeps the key set. -/
theorem addPodMetric_duplicate_witness :
    podKey exPodAgain ∈ mapKeys (exCluster.addPodMetric exPodA exUsage).podMetrics ∧
    mapKeys ((exCluster.addPodMetric exPodA exUsage).addPodMetric exPodAgain exUsage).podMetrics
      = mapKeys (exCluster.addPodMetric exPodA exUsage).podMetrics :=
  ⟨by decide,
   (addPodMetric_duplicate (exCluster.addPodMetric exPodA exUsage) exPodAgain exUsage
      (by decide)).1⟩

/-- C10: for a pod whose node name is not a key of nodeMetrics, addPodMetric files
the pod's metric in cluster.podMetrics under the pod's key, with the pod's name,
namespace, request and limit and with cpu and memory allocatable zero, and leaves
nodeMetrics as it was: no node's pod index and no node's cpu or memory metric
changes. -/
theorem addPodMetric_orphan (cm : clusterMetric) (pod : Pod) (podMetrics : PodMetrics)
    (h : pod.Spec.NodeName ∉ mapKeys cm.nodeMetrics) :
    (∃ pm, (cm.addPodMetric pod podMetrics).podMetrics.lookup (podKey pod) = some pm ∧
      pm.name = pod.Name ∧ pm.namespace_ = pod.Namespace ∧
      pm.cpu.request = pod.requests.get "cpu" ∧ pm.cpu.limit = pod.limits.get "cpu" ∧
      pm.memory.request = pod.requests.get "memory" ∧
      pm.memory.limit = pod.limits.get "memory" ∧
      pm.cpu.allocatable = 0 ∧ pm.memory.allocatable = 0) ∧
    (cm.addPodMetric pod podMetrics).nodeMetrics = cm.nodeMetrics := by
  rw [addPodMetric_of_lookup_none cm pod podMetrics (lookup_eq_none_of_not_mem _ _ h)]
  exact ⟨⟨_, lookup_mapSet_self _ _ _, rfl, rfl, rfl, rfl, rfl, rfl, rfl, rfl⟩, rfl⟩

/-- Example for C10: the orphan on "node-9" is filed under "default-lost" and the
node map is unchanged. -/
theorem addPodMetric_orphan_witness :
    exOrphan.Spec.NodeName ∉ mapKeys exCluster.nodeMetrics ∧
    (exCluster.addPodMetric exOrphan exUsage).nodeMetrics = exCluster.nodeMetrics ∧
    ((exCluster.addPodMetric exOrphan exUsage).podMetrics.lookup "default-lost").isSome :=
  ⟨by decide, (addPodMetric_orphan exCluster exOrphan exUsage (by decide)).2, by decide⟩


/-! ## Utilization, allocatable and registration -/

theorem map_mapSet_of_lookup {α β : Type} (g : α → β) (m : List (String × α)) (k : String)
    (v w : α) (h : m.lookup k = some w) (hg : g v = g w) :
    (mapSet m k v).map (fun p => (p.1, g p.2)) = m.map (fun p => (p.1, g p.2)) := by
  induction m with
  | nil => simp [List.lookup] at h
  | cons p m ih =>
    obtain ⟨k', w'⟩ := p
    by_cases hk : k' = k
    · subst hk
      simp [List.lookup] at h
      subst h
      simp [mapSet, hg]
    · have h' : (k == k') = false := by simpa using fun e => hk e.symm
      simp only [List.lookup, h'] at h
      simp only [mapSet, if_neg hk, List.map_cons, ih h]

theorem mem_mapKeys_mapSet {α : Type} (m : List (String × α)) (k : String) (v : α)
    (x : String) (h : x ∈ mapKeys (mapSet m k v)) : x ∈ mapKeys m ∨ x = k := by
  obtain ⟨p, hp, rfl⟩ := List.mem_map.1 h
  rcases mem_mapSet m k v p hp with hp | hp
  · exact Or.inl (List.mem_map.2 ⟨p, hp, rfl⟩)
  · exact Or.inr (by rw [hp])

/-- C11: addPodMetric sets the cpu and memory utilization of the pod metric it
files to the sum of the samples' cpu and memory usage (zero for an empty list);
when the pod's node is found, the node's and the cluster's cpu and memory
utilization each grow by exactly that sum; when no node is found, the cluster's
utilization and the whole node map are unchanged. -/
theorem addPodMetric_utilization (cm : clusterMetric) (pod : Pod) (podMetrics : PodMetrics) :
    (∃ pm, (cm.addPodMetric pod podMetrics).podMetrics.lookup (podKey pod) = some pm ∧
      pm.cpu.utilization = usageSum podMetrics.Containers "cpu" ∧
      pm.memory.utilization = usageSum podMetrics.Containers "memory") ∧
    (usageSum [] "cpu" = 0 ∧ usageSum [] "memory" = 0) ∧
    (∀ nm, cm.nodeMetrics.lookup pod.Spec.NodeName = some nm →
      (cm.addPodMetric pod podMetrics).cpu.utilization
        = cm.cpu.utilization.Add (usageSum podMetrics.Containers "cpu") ∧
      (cm.addPodMetric pod podMetrics).memory.utilization
        = cm.memory.utilization.Add (usageSum podMetrics.Containers "memory") ∧
      ∃ nm', (cm.addPodMetric pod podMetrics).nodeMetrics.lookup pod.Spec.NodeName = some nm' ∧
        nm'.cpu.utilization = nm.cpu.utilization.Add (usageSum podMetrics.Containers "cpu") ∧
        nm'.memory.utilization
          = nm.memory.utilization.Add (usageSum podMetrics.Containers "memory")) ∧
    (cm.nodeMetrics.lookup pod.Spec.NodeName = none →
      (cm.addPodMetric pod podMetrics).cpu.utilization = cm.cpu.utilization ∧
      (cm.addPodMetric pod podMetrics).memory.utilization = cm.memory.utilization ∧
      (cm.addPodMetric pod podMetrics).nodeMetrics = cm.nodeMetrics) := by
  cases hl : cm.nodeMetrics.lookup pod.Spec.NodeName with
  | none =>
    rw [addPodMetric_of_lookup_none cm pod podMetrics hl]
    refine ⟨⟨_, lookup_mapSet_self _ _ _, rfl, rfl⟩, ⟨rfl, rfl⟩, ?_, fun _ => ⟨rfl, rfl, rfl⟩⟩
    intro nm hnm
    cases hnm
  | some nm =>
    rw [addPodMetric_of_lookup_some cm pod podMetrics nm hl]
    refine ⟨⟨_, lookup_mapSet_self _ _ _, rfl, rfl⟩, ⟨rfl, rfl⟩, ?_, fun h => by cases h⟩
    intro nm1 hnm
    cases hnm
    exact ⟨rfl, rfl, _, lookup_mapSet_self _ _ _, rfl, rfl⟩

/-- Example for C11: one sample of 600m on "node-1" raises the cluster's cpu
utilization to 600m; the same sample of an orphan leaves it at zero. -/
theorem addPodMetric_utilization_witness :
    (exCluster.addPodMetric exPodA exUsage).cpu.utilization = Quantity.NewMilliQuantity 600 ∧
    (exCluster.addPodMetric exOrphan exUsage).cpu.utilization = 0 :=
  ⟨((addPodMetric_utilization exCluster exPodA exUsage).2.2.1 exNode (by decide)).1,
   ((addPodMetric_utilization exCluster exOrphan exUsage).2.2.2 (by decide)).1⟩

/-- C12: addPodMetric leaves the cluster's cpu and memory allocatable (and resource
types) unchanged, and in nodeMetrics every node keeps its name, its resource types
and its cpu and memory allocatable. -/
theorem addPodMetric_allocatable_unchanged (cm : clusterMetric) (pod : Pod)
    (podMetrics : PodMetrics) :
    (cm.addPodMetric pod podMetrics).cpu.allocatable = cm.cpu.allocatable ∧
    (cm.addPodMetric pod podMetrics).memory.allocatable = cm.memory.allocatable ∧
    (cm.addPodMetric pod podMetrics).cpu.resourceType = cm.cpu.resourceType ∧
    (cm.addPodMetric pod podMetrics).memory.resourceType = cm.memory.resourceType ∧
    (cm.addPodMetric pod podMetrics).nodeMetrics.map
        (fun n => (n.1, n.2.cpu.resourceType, n.2.cpu.allocatable, n.2.memory.resourceType,
          n.2.memory.allocatable))
      = cm.nodeMetrics.map
        (fun n => (n.1, n.2.cpu.resourceType, n.2.cpu.allocatable, n.2.memory.resourceType,
          n.2.memory.allocatable)) := by
  cases hl : cm.nodeMetrics.lookup pod.Spec.NodeName with
  | none =>
    rw [addPodMetric_of_lookup_none cm pod podMetrics hl]
    exact ⟨rfl, rfl, rfl, rfl, rfl⟩
  | some nm =>
    rw [addPodMetric_of_lookup_some cm pod podMetrics nm hl]
    refine ⟨rfl, rfl, rfl, rfl, ?_⟩
    exact map_mapSet_of_lookup
      (fun n : nodeMetric => (n.cpu.resourceType, n.cpu.allocatable, n.memory.resourceType,
        n.memory.allocatable)) _ _ _ nm hl rfl

/-- C14 (counterexample): the pod "web" of namespace "default" is filed under
"default-web", in the cluster's and in its node's pod index; nothing is filed
under "default/web". -/
theorem key_is_not_slash_separated :
    podKey exScenarioPod = "default-web" ∧ specKey exScenarioPod = "default/web" ∧
    (exZeroCluster.addPodMetric exScenarioPod exUsage).podMetrics.map Prod.fst
      = ["default-web"] ∧
    ((exZeroCluster.addPodMetric exScenarioPod exUsage).nodeMetrics.lookup "node-1").map
      (fun n => n.podMetrics.map Prod.fst) = some ["default-web"] ∧
    (exZeroCluster.addPodMetric exScenarioPod exUsage).podMetrics.lookup
      (specKey exScenarioPod) = none := by
  decide

/-- C14 (amended): the key under which addPodMetric files a pod in
cluster.podMetrics, and in the pod index of its node when the node is found, is
the string namespace ++ "-" ++ name; no other key is added to either index. -/
theorem addPodMetric_key (cm : clusterMetric) (pod : Pod) (podMetrics : PodMetrics) :
    (∃ pm, (cm.addPodMetric pod podMetrics).podMetrics.lookup
        (pod.Namespace ++ "-" ++ pod.Name) = some pm ∧
      pm.name = pod.Name ∧ pm.namespace_ = pod.Namespace) ∧
    (∀ k ∈ mapKeys (cm.addPodMetric pod podMetrics).podMetrics,
      k ∈ mapKeys cm.podMetrics ∨ k = pod.Namespace ++ "-" ++ pod.Name) ∧
    (∀ nm, cm.nodeMetrics.lookup pod.Spec.NodeName = some nm →
      ∃ nm' pm, (cm.addPodMetric pod podMetrics).nodeMetrics.lookup pod.Spec.NodeName
          = some nm' ∧
        nm'.podMetrics.lookup (pod.Namespace ++ "-" ++ pod.Name) = some pm ∧
        pm.name = pod.Name ∧ pm.namespace_ = pod.Namespace ∧
        ∀ k ∈ mapKeys nm'.podMetrics,
          k ∈ mapKeys nm.podMetrics ∨ k = pod.Namespace ++ "-" ++ pod.Name) := by
  have hkey : pod.Namespace ++ "-" ++ pod.Name = podKey pod := rfl
  rw [hkey]
  cases hl : cm.nodeMetrics.lookup pod.Spec.NodeName with
  | none =>
    rw [addPodMetric_of_lookup_none cm pod podMetrics hl]
    refine ⟨⟨_, lookup_mapSet_self _ _ _, rfl, rfl⟩, fun k hk => mem_mapKeys_mapSet _ _ _ k hk, ?_⟩
    intro nm hnm
    cases hnm
  | some nm =>
    rw [addPodMetric_of_lookup_some cm pod podMetrics nm hl]
    refine ⟨⟨_, lookup_mapSet_self _ _ _, rfl, rfl⟩, fun k hk => mem_mapKeys_mapSet _ _ _ k hk, ?_⟩
    intro nm1 hnm
    cases hnm
    exact ⟨_, _, lookup_mapSet_self _ _ _, lookup_mapSet_self _ _ _, rfl, rfl,
      fun k hk => mem_mapKeys_mapSet _ _ _ k hk⟩

/-- Example for C14: the node's pod index binds "default-web" to the metric of "web". -/
theorem addPodMetric_key_witness :
    ∃ nm' pm, (exZeroCluster.addPodMetric exScenarioPod exUsage).nodeMetrics.lookup "node-1"
        = some nm' ∧
      nm'.podMetrics.lookup "default-web" = some pm ∧ pm.name = "web" := by
  obtain ⟨nm', pm, h1, h2, h3, _⟩ :=
    (addPodMetric_key exZeroCluster exScenarioPod exUsage).2.2 exNode (by decide)
  exact ⟨nm', pm, h1, h2, h3⟩

/-- C15: for a pod whose node is found, the pod metric that addPodMetric files has
the pod's name and namespace, cpu of type "cpu" and memory of type "memory", the
pod's resolved cpu and memory request and limit, and the node's cpu and memory
allocatable; the same pod metric is bound to the same key in cluster.podMetrics
and in the node's podMetrics. -/
theorem addPodMetric_registers (cm : clusterMetric) (pod : Pod) (podMetrics : PodMetrics)
    (nm : nodeMetric) (h : cm.nodeMetrics.lookup pod.Spec.NodeName = some nm) :
    ∃ pm nm',
      (cm.addPodMetric pod podMetrics).podMetrics.lookup (podKey pod) = some pm ∧
      (cm.addPodMetric pod podMetrics).nodeMetrics.lookup pod.Spec.NodeName = some nm' ∧
      nm'.podMetrics.lookup (podKey pod) = some pm ∧
      pm.name = pod.Name ∧ pm.namespace_ = pod.Namespace ∧
      pm.cpu.resourceType = "cpu" ∧ pm.memory.resourceType = "memory" ∧
      pm.cpu.request = pod.requests.get "cpu" ∧ pm.cpu.limit = pod.limits.get "cpu" ∧
      pm.memory.request = pod.requests.get "memory" ∧
      pm.memory.limit = pod.limits.get "memory" ∧
      pm.cpu.allocatable = nm.cpu.allocatable ∧
      pm.memory.allocatable = nm.memory.allocatable := by
  rw [addPodMetric_of_lookup_some cm pod podMetrics nm h]
  exact ⟨_, _, lookup_mapSet_self _ _ _, lookup_mapSet_self _ _ _, lookup_mapSet_self _ _ _,
    rfl, rfl, rfl, rfl, rfl, rfl, rfl, rfl, rfl, rfl⟩

/-- Example for C15: the metric of "web" carries the 2000m of "node-1" and its own
request of 500m. -/
theorem addPodMetric_registers_witness :
    exZeroCluster.nodeMetrics.lookup exScenarioPod.Spec.NodeName = some exNode ∧
    ∃ pm, (exZeroCluster.addPodMetric exScenarioPod exUsage).podMetrics.lookup "default-web"
        = some pm ∧
      pm.cpu.allocatable = Quantity.NewMilliQuantity 2000 ∧
      pm.cpu.request = Quantity.NewMilliQuantity 500 := by
  obtain ⟨pm, nm', h1, _, _, _, _, _, _, h8, _, _, _, h12, _⟩ :=
    addPodMetric_registers exZeroCluster exScenarioPod exUsage exNode (by decide)
  exact ⟨by decide, pm, h1, h12, h8⟩

/-! ## Folding nodes into the cluster -/

theorem addPodMetric_clusterUtilSums (cm : clusterMetric) (pod : Pod) (podMetrics : PodMetrics)
    (h : clusterUtilSums cm) : clusterUtilSums (cm.addPodMetric pod podMetrics) := by
  cases hl : cm.nodeMetrics.lookup pod.Spec.NodeName with
  | none =>
    rw [addPodMetric_of_lookup_none cm pod podMetrics hl]
    exact h
  | some nm =>
    rw [addPodMetric_of_lookup_some cm pod podMetrics nm hl]
    obtain ⟨h1, h2⟩ := h
    unfold clusterUtilSums
    simp only [mapSum_mapSet_of_lookup _ _ _ _ _ hl, Quantity.Add]
    refine ⟨?_, ?_⟩ <;> omega

theorem addPodMetrics_clusterUtilSums (cm : clusterMetric) (pods : List (Pod × PodMetrics))
    (h : clusterUtilSums cm) : clusterUtilSums (addPodMetrics cm pods) := by
  induction pods generalizing cm with
  | nil => exact h
  | cons p pods ih =>
    exact ih _ (addPodMetric_clusterUtilSums cm p.1 p.2 h)

theorem addNodeMetrics_nil (cm : clusterMetric) : addNodeMetrics cm [] = cm := rfl

theorem addNodeMetrics_cons (cm : clusterMetric) (n : nodeMetric) (nodes : List nodeMetric) :
    addNodeMetrics cm (n :: nodes) = addNodeMetrics (cm.addNodeMetric n) nodes := rfl

theorem addNodeMetrics_maps (cm : clusterMetric) (nodes : List nodeMetric) :
    (addNodeMetrics cm nodes).nodeMetrics = cm.nodeMetrics ∧
    (addNodeMetrics cm nodes).podMetrics = cm.podMetrics ∧
    (addNodeMetrics cm nodes).cpu.resourceType = cm.cpu.resourceType ∧
    (addNodeMetrics cm nodes).memory.resourceType = cm.memory.resourceType := by
  induction nodes generalizing cm with
  | nil => exact ⟨rfl, rfl, rfl, rfl⟩
  | cons n nodes ih =>
    rw [addNodeMetrics_cons]
    obtain ⟨h1, h2, h3, h4⟩ := ih (cm.addNodeMetric n)
    exact ⟨h1, h2, h3, h4⟩

theorem addNodeMetrics_cpu (cm : clusterMetric) (nodes : List nodeMetric) :
    (addNodeMetrics cm nodes).cpu.allocatable.nano
      = cm.cpu.allocatable.nano + (nodes.map (fun n => n.cpu.allocatable.nano)).sum ∧
    (addNodeMetrics cm nodes).cpu.utilization.nano
      = cm.cpu.utilization.nano + (nodes.map (fun n => n.cpu.utilization.nano)).sum ∧
    (addNodeMetrics cm nodes).cpu.request.nano
      = cm.cpu.request.nano + (nodes.map (fun n => n.cpu.request.nano)).sum ∧
    (addNodeMetrics cm nodes).cpu.limit.nano
      = cm.cpu.limit.nano + (nodes.map (fun n => n.cpu.limit.nano)).sum := by
  induction nodes generalizing cm with
  | nil => simp [addNodeMetrics_nil]
  | cons n nodes ih =>
    rw [addNodeMetrics_cons]
    obtain ⟨h1, h2, h3, h4⟩ := ih (cm.addNodeMetric n)
    rw [h1, h2, h3, h4]
    simp only [clusterMetric.addNodeMetric, resourceMetric.addMetric, Quantity.Add,
      List.map_cons, List.sum_cons]
    refine ⟨?_, ?_, ?_, ?_⟩ <;> omega

theorem addNodeMetrics_memory (cm : clusterMetric) (nodes : List nodeMetric) :
    (addNodeMetrics cm nodes).memory.allocatable.nano
      = cm.memory.allocatable.nano + (nodes.map (fun n => n.memory.allocatable.nano)).sum ∧
    (addNodeMetrics cm nodes).memory.utilization.nano
      = cm.memory.utilization.nano + (nodes.map (fun n => n.memory.utilization.nano)).sum ∧
    (addNodeMetrics cm nodes).memory.request.nano
      = cm.memory.request.nano + (nodes.map (fun n => n.memory.request.nano)).sum ∧
    (addNodeMetrics cm nodes).memory.limit.nano
      = cm.memory.limit.nano + (nodes.map (fun n => n.memory.limit.nano)).sum := by
  induction nodes generalizing cm with
  | nil => simp [addNodeMetrics_nil]
  | cons n nodes ih =>
    rw [addNodeMetrics_cons]
    obtain ⟨h1, h2, h3, h4⟩ := ih (cm.addNodeMetric n)
    rw [h1, h2, h3, h4]
    simp only [clusterMetric.addNodeMetric, resourceMetric.addMetric, Quantity.Add,
      List.map_cons, List.sum_cons]
    refine ⟨?_, ?_, ?_, ?_⟩ <;> omega

theorem mapSum_eq_sum_map {α : Type} (f : α → Int) (m : List (String × α)) :
    mapSum f m = ((m.map Prod.snd).map f).sum := by
  simp [mapSum, List.map_map, Function.comp_def]

theorem Quantity.nano_zero : (0 : Quantity).nano = 0 := rfl

/-- C16: addMetric adds allocatable, utilization, request and limit of its argument
into the receiver field by field and keeps the receiver's resource type; after one
addNodeMetric call for each node of the inventory, on a cluster whose cpu and
memory allocatable were zero, the cluster's cpu (memory) allocatable is the sum of
the nodes' cpu (memory) allocatable. -/
theorem addMetric_elementwise :
    (∀ rm m : resourceMetric,
      (rm.addMetric m).allocatable = rm.allocatable.Add m.allocatable ∧
      (rm.addMetric m).utilization = rm.utilization.Add m.utilization ∧
      (rm.addMetric m).request = rm.request.Add m.request ∧
      (rm.addMetric m).limit = rm.limit.Add m.limit ∧
      (rm.addMetric m).resourceType = rm.resourceType) ∧
    (∀ cm : clusterMetric, cm.cpu.allocatable = 0 → cm.memory.allocatable = 0 →
      (addNodeMetrics cm (cm.nodeMetrics.map Prod.snd)).cpu.allocatable.nano
        = mapSum (fun n => n.cpu.allocatable.nano) cm.nodeMetrics ∧
      (addNodeMetrics cm (cm.nodeMetrics.map Prod.snd)).memory.allocatable.nano
        = mapSum (fun n => n.memory.allocatable.nano) cm.nodeMetrics) := by
  refine ⟨fun rm m => ⟨rfl, rfl, rfl, rfl, rfl⟩, ?_⟩
  intro cm hc hm
  rw [(addNodeMetrics_cpu cm _).1, (addNodeMetrics_memory cm _).1, hc, hm,
    mapSum_eq_sum_map, mapSum_eq_sum_map, Quantity.nano_zero]
  exact ⟨zero_add _, zero_add _⟩

/-- Example for C16: nodes of 2000m and 4000m fold into 6000m of cluster cpu. -/
theorem addMetric_elementwise_witness :
    (addNodeMetrics { exZeroCluster with nodeMetrics := [("node-1", exNode), ("node-2", exNodeLarge)] }
        [exNode, exNodeLarge]).cpu.allocatable.nano = 6000000000 := by
  have h := (addMetric_elementwise.2
    { exZeroCluster with nodeMetrics := [("node-1", exNode), ("node-2", exNodeLarge)] }
    rfl rfl).1
  exact h.trans (by decide)

/-- C19: addNodeMetric adds the node's request, limit, utilization and allocatable
to the cluster's; so for a cluster and nodes whose request, limit and utilization
start at zero, after any pods are attributed and addNodeMetric is then called once
for each node, each cpu and memory request, limit and utilization total of the
cluster is exactly twice the sum of that figure over the nodes. -/
theorem addNodeMetric_after_pods_doubles (cm : clusterMetric) (pods : List (Pod × PodMetrics))
    (hc : cm.cpu.request = 0 ∧ cm.cpu.limit = 0 ∧ cm.cpu.utilization = 0 ∧
      cm.memory.request = 0 ∧ cm.memory.limit = 0 ∧ cm.memory.utilization = 0)
    (hn : ∀ n ∈ cm.nodeMetrics,
      n.2.cpu.request = 0 ∧ n.2.cpu.limit = 0 ∧ n.2.cpu.utilization = 0 ∧
      n.2.memory.request = 0 ∧ n.2.memory.limit = 0 ∧ n.2.memory.utilization = 0) :
    (∀ (c : clusterMetric) (nm : nodeMetric),
      (c.addNodeMetric nm).cpu.request = c.cpu.request.Add nm.cpu.request ∧
      (c.addNodeMetric nm).cpu.limit = c.cpu.limit.Add nm.cpu.limit ∧
      (c.addNodeMetric nm).cpu.utilization = c.cpu.utilization.Add nm.cpu.utilization ∧
      (c.addNodeMetric nm).cpu.allocatable = c.cpu.allocatable.Add nm.cpu.allocatable ∧
      (c.addNodeMetric nm).memory.request = c.memory.request.Add nm.memory.request ∧
      (c.addNodeMetric nm).memory.limit = c.memory.limit.Add nm.memory.limit ∧
      (c.addNodeMetric nm).memory.utilization
        = c.memory.utilization.Add nm.memory.utilization ∧
      (c.addNodeMetric nm).memory.allocatable
        = c.memory.allocatable.Add nm.memory.allocatable) ∧
    (addNodeMetrics (addPodMetrics cm pods)
        ((addPodMetrics cm pods).nodeMetrics.map Prod.snd)).cpu.request.nano
      = 2 * mapSum (fun n => n.cpu.request.nano) (addPodMetrics cm pods).nodeMetrics ∧
    (addNodeMetrics (addPodMetrics cm pods)
        ((addPodMetrics cm pods).nodeMetrics.map Prod.snd)).cpu.limit.nano
      = 2 * mapSum (fun n => n.cpu.limit.nano) (addPodMetrics cm pods).nodeMetrics ∧
    (addNodeMetrics (addPodMetrics cm pods)
        ((addPodMetrics cm pods).nodeMetrics.map Prod.snd)).cpu.utilization.nano
      = 2 * mapSum (fun n => n.cpu.utilization.nano) (addPodMetrics cm pods).nodeMetrics ∧
    (addNodeMetrics (addPodMetrics cm pods)
        ((addPodMetrics cm pods).nodeMetrics.map Prod.snd)).memory.request.nano
      = 2 * mapSum (fun n => n.memory.request.nano) (addPodMetrics cm pods).nodeMetrics ∧
    (addNodeMetrics (addPodMetrics cm pods)
        ((addPodMetrics cm pods).nodeMetrics.map Prod.snd)).memory.limit.nano
      = 2 * mapSum (fun n => n.memory.limit.nano) (addPodMetrics cm pods).nodeMetrics ∧
    (addNodeMetrics (addPodMetrics cm pods)
        ((addPodMetrics cm pods).nodeMetrics.map Prod.snd)).memory.utilization.nano
      = 2 * mapSum (fun n => n.memory.utilization.nano) (addPodMetrics cm pods).nodeMetrics := by
  refine ⟨fun c nm => ⟨rfl, rfl, rfl, rfl, rfl, rfl, rfl, rfl⟩, ?_⟩
  obtain ⟨c1, c2, c3, c4, c5, c6⟩ := hc
  have hs : clusterSums cm := by
    unfold clusterSums
    rw [c1, c2, c4, c5,
      mapSum_eq_zero _ _ (fun p hp => by rw [(hn p hp).1]; rfl),
      mapSum_eq_zero _ _ (fun p hp => by rw [(hn p hp).2.1]; rfl),
      mapSum_eq_zero _ _ (fun p hp => by rw [(hn p hp).2.2.2.1]; rfl),
      mapSum_eq_zero _ _ (fun p hp => by rw [(hn p hp).2.2.2.2.1]; rfl)]
    exact ⟨rfl, rfl, rfl, rfl⟩
  have hu : clusterUtilSums cm := by
    unfold clusterUtilSums
    rw [c3, c6,
      mapSum_eq_zero _ _ (fun p hp => by rw [(hn p hp).2.2.1]; rfl),
      mapSum_eq_zero _ _ (fun p hp => by rw [(hn p hp).2.2.2.2.2]; rfl)]
    exact ⟨rfl, rfl⟩
  obtain ⟨s1, s2, s3, s4⟩ := addPodMetrics_clusterSums cm pods hs
  obtain ⟨u1, u2⟩ := addPodMetrics_clusterUtilSums cm pods hu
  obtain ⟨_, a2, a3, a4⟩ := addNodeMetrics_cpu (addPodMetrics cm pods)
    ((addPodMetrics cm pods).nodeMetrics.map Prod.snd)
  obtain ⟨_, b2, b3, b4⟩ := addNodeMetrics_memory (addPodMetrics cm pods)
    ((addPodMetrics cm pods).nodeMetrics.map Prod.snd)
  rw [a2, a3, a4, b2, b3, b4]
  simp only [← mapSum_eq_sum_map]
  refine ⟨?_, ?_, ?_, ?_, ?_, ?_⟩ <;> omega

/-- Example for C19: one pod requesting 500m, then the fold of its node, gives a
cluster cpu request of 1000m. -/
theorem addNodeMetric_after_pods_doubles_witness :
    (addNodeMetrics (addPodMetrics exZeroCluster [(exScenarioPod, exUsage)])
        ((addPodMetrics exZeroCluster [(exScenarioPod, exUsage)]).nodeMetrics.map
          Prod.snd)).cpu.request.nano = 1000000000 := by
  have h := (addNodeMetric_after_pods_doubles exZeroCluster [(exScenarioPod, exUsage)]
    (by decide) (by decide)).2.1
  exact h.trans (by decide)

theorem lookup_singleton_self {α : Type} (k : String) (v : α) :
    List.lookup k [(k, v)] = some v := by
  simp [List.lookup]

theorem mapSet_singleton_self {α : Type} (k : String) (v w : α) :
    mapSet [(k, v)] k w = [(k, w)] := by
  simp [mapSet]

/-- C13: for an all-zero cluster whose only node is folded in with addNodeMetric
before any pod is attributed, and pods that are all scheduled on that node, the
cluster's cpu and memory metrics equal the node's in allocatable, request, limit
and utilization. -/
theorem single_node_cluster_equals_node (cm : clusterMetric) (name : String) (nm : nodeMetric)
    (pods : List (Pod × PodMetrics))
    (hcpu : cm.cpu.allocatable = 0 ∧ cm.cpu.utilization = 0 ∧ cm.cpu.request = 0 ∧
      cm.cpu.limit = 0)
    (hmem : cm.memory.allocatable = 0 ∧ cm.memory.utilization = 0 ∧ cm.memory.request = 0 ∧
      cm.memory.limit = 0)
    (hnodes : cm.nodeMetrics = [(name, nm)])
    (hpods : ∀ p ∈ pods, p.1.Spec.NodeName = name) :
    ∃ nm', (addPodMetrics (cm.addNodeMetric nm) pods).nodeMetrics = [(name, nm')] ∧
      (addPodMetrics (cm.addNodeMetric nm) pods).cpu.allocatable = nm'.cpu.allocatable ∧
      (addPodMetrics (cm.addNodeMetric nm) pods).cpu.request = nm'.cpu.request ∧
      (addPodMetrics (cm.addNodeMetric nm) pods).cpu.limit = nm'.cpu.limit ∧
      (addPodMetrics (cm.addNodeMetric nm) pods).cpu.utilization = nm'.cpu.utilization ∧
      (addPodMetrics (cm.addNodeMetric nm) pods).memory.allocatable = nm'.memory.allocatable ∧
      (addPodMetrics (cm.addNodeMetric nm) pods).memory.request = nm'.memory.request ∧
      (addPodMetrics (cm.addNodeMetric nm) pods).memory.limit = nm'.memory.limit ∧
      (addPodMetrics (cm.addNodeMetric nm) pods).memory.utilization
        = nm'.memory.utilization := by
  have key : ∀ (pods : List (Pod × PodMetrics)) (c : clusterMetric) (n : nodeMetric),
      (∀ p ∈ pods, p.1.Spec.NodeName = name) →
      c.nodeMetrics = [(name, n)] →
      c.cpu.allocatable = n.cpu.allocatable → c.cpu.request = n.cpu.request →
      c.cpu.limit = n.cpu.limit → c.cpu.utilization = n.cpu.utilization →
      c.memory.allocatable = n.memory.allocatable → c.memory.request = n.memory.request →
      c.memory.limit = n.memory.limit → c.memory.utilization = n.memory.utilization →
      ∃ nm', (addPodMetrics c pods).nodeMetrics = [(name, nm')] ∧
        (addPodMetrics c pods).cpu.allocatable = nm'.cpu.allocatable ∧
        (addPodMetrics c pods).cpu.request = nm'.cpu.request ∧
        (addPodMetrics c pods).cpu.limit = nm'.cpu.limit ∧
        (addPodMetrics c pods).cpu.utilization = nm'.cpu.utilization ∧
        (addPodMetrics c pods).memory.allocatable = nm'.memory.allocatable ∧
        (addPodMetrics c pods).memory.request = nm'.memory.request ∧
        (addPodMetrics c pods).memory.limit = nm'.memory.limit ∧
        (addPodMetrics c pods).memory.utilization = nm'.memory.utilization := by
    intro pods
    induction pods with
    | nil =>
      intro c n _ h0 h1 h2 h3 h4 h5 h6 h7 h8
      exact ⟨n, h0, h1, h2, h3, h4, h5, h6, h7, h8⟩
    | cons p pods ih =>
      intro c n hp h0 h1 h2 h3 h4 h5 h6 h7 h8
      have hnode : p.1.Spec.NodeName = name := hp p (List.mem_cons_self _ _)
      have hl : c.nodeMetrics.lookup p.1.Spec.NodeName = some n := by
        rw [h0, hnode]; exact lookup_singleton_self _ _
      have hstep : addPodMetrics c (p :: pods) = addPodMetrics (c.addPodMetric p.1 p.2) pods :=
        rfl
      rw [hstep, addPodMetric_of_lookup_some c p.1 p.2 n hl]
      refine ih _ ?n (fun q hq => hp q (List.mem_cons_of_mem _ hq))
        ?h0 ?_ ?_ ?_ ?_ ?_ ?_ ?_ ?_
      case h0 =>
        simp only [h0, hnode]
        exact mapSet_singleton_self _ _ _
      all_goals simp only [h1, h2, h3, h4, h5, h6, h7, h8]
  obtain ⟨a1, a2, a3, a4⟩ := hcpu
  obtain ⟨b1, b2, b3, b4⟩ := hmem
  refine key pods (cm.addNodeMetric nm) nm hpods hnodes ?_ ?_ ?_ ?_ ?_ ?_ ?_ ?_
  all_goals
    simp only [clusterMetric.addNodeMetric, resourceMetric.addMetric, a1, a2, a3, a4, b1, b2,
      b3, b4, Quantity.zero_Add]

/-- Example for C13: the node of 2000m and 2048Mi with the one pod of the scenario. -/
theorem single_node_cluster_equals_node_witness :
    (∀ p ∈ [(exScenarioPod, exUsage)], p.1.Spec.NodeName = "node-1") ∧
    ∃ nm', (addPodMetrics (exZeroCluster.addNodeMetric exNode)
        [(exScenarioPod, exUsage)]).nodeMetrics = [("node-1", nm')] ∧
      (addPodMetrics (exZeroCluster.addNodeMetric exNode)
        [(exScenarioPod, exUsage)]).cpu.request = nm'.cpu.request ∧
      (addPodMetrics (exZeroCluster.addNodeMetric exNode)
        [(exScenarioPod, exUsage)]).memory.utilization = nm'.memory.utilization := by
  obtain ⟨nm', h0, _, h2, _, _, _, _, _, h8⟩ :=
    single_node_cluster_equals_node exZeroCluster "node-1" exNode [(exScenarioPod, exUsage)]
      (by decide) (by decide) rfl (by decide)
  exact ⟨by decide, nm', h0, h2, h8⟩

/-! ## The percent accessor and the key -/

/-- C17 (evaluation at the failing input): for a metric with allocatable zero and
the quantity 5m, the quotient inside percentFunction is +Inf, so the accessor
renders whatever the platform's int64 conversion makes of +Inf; with the
conversion of amd64 that is "-9223372036854775808%", not "0%".  The guarded
sibling resourceString renders 0% on the same input. -/
theorem percentFunction_zero_allocatable (outOfRange : Float64 → Int) :
    Float64.div (Float64.ofInt (NewMilliQuantity 5).MilliValue)
        (Float64.ofInt exNoAllocatable.allocatable.MilliValue) = Float64.inf false ∧
    exNoAllocatable.percentFunction outOfRange (NewMilliQuantity 5)
      = fmtInt (outOfRange (Float64.inf false)) ++ "%" ∧
    exNoAllocatable.percentFunction (fun _ => -2 ^ 63) (NewMilliQuantity 5)
      = "-9223372036854775808%" ∧
    resourceString outOfRange (NewMilliQuantity 5) exNoAllocatable.allocatable "cpu"
      = "5m (0%)" :=
  ⟨by decide, rfl, by decide, rfl⟩

/-- C18 (evaluation at the failing input): the pods "a-b"/"c" and "a"/"b-c" have
valid names and different identities, and both get the key "a-b-c"; attributed
one after the other they share one entry of cluster.podMetrics, which holds the
second pod only. -/
theorem podKey_not_injective :
    validNamespace exPodA.Namespace = true ∧ validPodName exPodA.Name = true ∧
    validNamespace exPodB.Namespace = true ∧ validPodName exPodB.Name = true ∧
    (exPodA.Namespace, exPodA.Name) ≠ (exPodB.Namespace, exPodB.Name) ∧
    podKey exPodA = "a-b-c" ∧ podKey exPodB = "a-b-c" ∧
    ((exCluster.addPodMetric exPodA exUsage).addPodMetric exPodB exUsage).podMetrics.map
      (fun p => (p.1, p.2.namespace_, p.2.name)) = [("a-b-c", "a", "b-c")] := by
  decide

theorem list_split_at_dash (l₁ l₂ r₁ r₂ : List Char) (h₁ : '-' ∉ l₁) (h₂ : '-' ∉ l₂)
    (h : l₁ ++ '-' :: r₁ = l₂ ++ '-' :: r₂) : l₁ = l₂ ∧ r₁ = r₂ := by
  induction l₁ generalizing l₂ with
  | nil =>
    cases l₂ with
    | nil => simpa using h
    | cons c l₂ =>
      simp only [List.nil_append, List.cons_append, List.cons.injEq] at h
      simp only [List.mem_cons, not_or] at h₂
      exact absurd h.1 h₂.1
  | cons c l₁ ih =>
    cases l₂ with
    | nil =>
      simp only [List.nil_append, List.cons_append, List.cons.injEq] at h
      simp only [List.mem_cons, not_or] at h₁
      exact absurd h.1.symm h₁.1
    | cons d l₂ =>
      simp only [List.cons_append, List.cons.injEq] at h
      simp only [List.mem_cons, not_or] at h₁ h₂
      obtain ⟨e1, e2⟩ := ih l₂ h₁.2 h₂.2 h.2
      exact ⟨by rw [h.1, e1], e2⟩

/-- The key is injective on the pods whose namespaces contain no '-'. -/
theorem podKey_injective_of_no_dash (p q : Pod) (hp : '-' ∉ p.Namespace.data)
    (hq : '-' ∉ q.Namespace.data) (h : podKey p = podKey q) :
    p.Namespace = q.Namespace ∧ p.Name = q.Name := by
  have hd := congrArg String.data h
  simp only [podKey, String.data_append] at hd
  rw [List.append_assoc, List.append_assoc] at hd
  obtain ⟨e1, e2⟩ := list_split_at_dash _ _ _ _ hp hq hd
  exact ⟨String.ext e1, String.ext e2⟩

/-! ## Independence of the order of attribution -/

theorem Quantity.Add_right_comm (a b c : Quantity) : (a.Add b).Add c = (a.Add c).Add b := by
  simp [Quantity.Add, add_right_comm]

theorem sameMap_refl {α : Type} (m : List (String × α)) : sameMap m m := fun _ => rfl

theorem sameMap_trans {α : Type} {m₁ m₂ m₃ : List (String × α)} (h₁ : sameMap m₁ m₂)
    (h₂ : sameMap m₂ m₃) : sameMap m₁ m₃ := fun k => (h₁ k).trans (h₂ k)

theorem lookup_mapSet {α : Type} (m : List (String × α)) (k k' : String) (v : α) :
    (mapSet m k v).lookup k' = if k' = k then some v else m.lookup k' := by
  by_cases h : k' = k
  · rw [if_pos h, h]; exact lookup_mapSet_self m k v
  · rw [if_neg h]; exact lookup_mapSet_of_ne m k k' v h

theorem sameMap_mapSet {α : Type} {m₁ m₂ : List (String × α)} (h : sameMap m₁ m₂) (k : String)
    (v : α) : sameMap (mapSet m₁ k v) (mapSet m₂ k v) := by
  intro k'
  rw [lookup_mapSet, lookup_mapSet, h k']

theorem sameMap_mapSet_comm {α : Type} (m : List (String × α)) (k₁ k₂ : String) (a b : α)
    (h : k₁ ≠ k₂) :
    sameMap (mapSet (mapSet m k₁ a) k₂ b) (mapSet (mapSet m k₂ b) k₁ a) := by
  intro k'
  simp only [lookup_mapSet]
  by_cases h1 : k' = k₁
  · have h2 : ¬ k' = k₂ := fun e => h (h1.symm.trans e)
    simp [h1, h2, h]
  · simp [h1]

theorem sameNode_refl (n : nodeMetric) : sameNode n n := ⟨rfl, rfl, sameMap_refl _⟩

theorem sameNode_trans {n₁ n₂ n₃ : nodeMetric} (h₁ : sameNode n₁ n₂) (h₂ : sameNode n₂ n₃) :
    sameNode n₁ n₃ :=
  ⟨h₁.1.trans h₂.1, h₁.2.1.trans h₂.2.1, sameMap_trans h₁.2.2 h₂.2.2⟩

theorem sameNodeOption_refl (o : Option nodeMetric) : sameNodeOption o o := by
  cases o with
  | none => trivial
  | some n => exact sameNode_refl n

theorem sameNodeOption_trans {o₁ o₂ o₃ : Option nodeMetric} (h₁ : sameNodeOption o₁ o₂)
    (h₂ : sameNodeOption o₂ o₃) : sameNodeOption o₁ o₃ := by
  cases o₁ <;> cases o₂ <;> cases o₃ <;> simp only [sameNodeOption] at h₁ h₂ ⊢
  exact sameNode_trans h₁ h₂

theorem sameNodeOption_of_eq {o₁ o₂ : Option nodeMetric} (h : o₁ = o₂) :
    sameNodeOption o₁ o₂ := h ▸ sameNodeOption_refl o₁

theorem sameCluster_refl (c : clusterMetric) : sameCluster c c :=
  ⟨rfl, rfl, sameMap_refl _, fun _ => sameNodeOption_refl _⟩

theorem sameCluster_trans {c₁ c₂ c₃ : clusterMetric} (h₁ : sameCluster c₁ c₂)
    (h₂ : sameCluster c₂ c₃) : sameCluster c₁ c₃ :=
  ⟨h₁.1.trans h₂.1, h₁.2.1.trans h₂.2.1, sameMap_trans h₁.2.2.1 h₂.2.2.1,
    fun name => sameNodeOption_trans (h₁.2.2.2 name) (h₂.2.2.2 name)⟩

/-- Attribution of one pod respects equality of clusters as maps. -/
theorem addPodMetric_sameCluster {c₁ c₂ : clusterMetric} (h : sameCluster c₁ c₂) (pod : Pod)
    (podMetrics : PodMetrics) :
    sameCluster (c₁.addPodMetric pod podMetrics) (c₂.addPodMetric pod podMetrics) := by
  obtain ⟨hcpu, hmem, hpods, hnodes⟩ := h
  have hn := hnodes pod.Spec.NodeName
  cases h1 : c₁.nodeMetrics.lookup pod.Spec.NodeName with
  | none =>
    cases h2 : c₂.nodeMetrics.lookup pod.Spec.NodeName with
    | none =>
      rw [addPodMetric_of_lookup_none c₁ pod podMetrics h1,
        addPodMetric_of_lookup_none c₂ pod podMetrics h2]
      exact ⟨hcpu, hmem, sameMap_mapSet hpods _ _, hnodes⟩
    | some n₂ => rw [h1, h2] at hn; exact absurd hn (by simp [sameNodeOption])
  | some n₁ =>
    cases h2 : c₂.nodeMetrics.lookup pod.Spec.NodeName with
    | none => rw [h1, h2] at hn; exact absurd hn (by simp [sameNodeOption])
    | some n₂ =>
      rw [h1, h2] at hn
      obtain ⟨ncpu, nmem, npods⟩ := hn
      rw [addPodMetric_of_lookup_some c₁ pod podMetrics n₁ h1,
        addPodMetric_of_lookup_some c₂ pod podMetrics n₂ h2]
      refine ⟨by simp only [hcpu], by simp only [hmem], ?_, ?_⟩
      · simp only [ncpu, nmem]
        exact sameMap_mapSet hpods _ _
      · intro name
        simp only [lookup_mapSet]
        by_cases hname : name = pod.Spec.NodeName
        · simp only [if_pos hname, sameNodeOption]
          refine ⟨by simp only [ncpu], by simp only [nmem], ?_⟩
          simp only [ncpu, nmem]
          exact sameMap_mapSet npods _ _
        · simp only [if_neg hname]
          exact hnodes name

theorem addPodMetrics_sameCluster {c₁ c₂ : clusterMetric} (h : sameCluster c₁ c₂)
    (pods : List (Pod × PodMetrics)) :
    sameCluster (addPodMetrics c₁ pods) (addPodMetrics c₂ pods) := by
  induction pods generalizing c₁ c₂ with
  | nil => exact h
  | cons p pods ih => exact ih (addPodMetric_sameCluster h p.1 p.2)

theorem addPodMetric_lookup_node_of_ne (c : clusterMetric) (pod : Pod) (podMetrics : PodMetrics)
    (name : String) (h : name ≠ pod.Spec.NodeName) :
    (c.addPodMetric pod podMetrics).nodeMetrics.lookup name = c.nodeMetrics.lookup name := by
  cases hl : c.nodeMetrics.lookup pod.Spec.NodeName with
  | none => rw [addPodMetric_of_lookup_none c pod podMetrics hl]
  | some nm =>
    rw [addPodMetric_of_lookup_some c pod podMetrics nm hl]
    exact lookup_mapSet_of_ne _ _ _ _ h

theorem addPodMetric_lookup_node_self (c : clusterMetric) (pod : Pod) (podMetrics : PodMetrics)
    (nm : nodeMetric) (h : c.nodeMetrics.lookup pod.Spec.NodeName = some nm) :
    ∃ n₁, (c.addPodMetric pod podMetrics).nodeMetrics.lookup pod.Spec.NodeName = some n₁ ∧
      n₁.cpu =
        { nm.cpu with
          request := nm.cpu.request.Add (pod.requests.get "cpu")
          limit := nm.cpu.limit.Add (pod.limits.get "cpu")
          utilization := nm.cpu.utilization.Add (usageSum podMetrics.Containers "cpu") } ∧
      n₁.memory =
        { nm.memory with
          request := nm.memory.request.Add (pod.requests.get "memory")
          limit := nm.memory.limit.Add (pod.limits.get "memory")
          utilization :=
            nm.memory.utilization.Add (usageSum podMetrics.Containers "memory") } ∧
      n₁.podMetrics = mapSet nm.podMetrics (podKey pod)
        { name := pod.Name
          namespace_ := pod.Namespace
          cpu := ⟨"cpu", nm.cpu.allocatable, usageSum podMetrics.Containers "cpu",
            pod.requests.get "cpu", pod.limits.get "cpu"⟩
          memory := ⟨"memory", nm.memory.allocatable,
            usageSum podMetrics.Containers "memory", pod.requests.get "memory",
            pod.limits.get "memory"⟩ } := by
  rw [addPodMetric_of_lookup_some c pod podMetrics nm h]
  exact ⟨_, lookup_mapSet_self _ _ _, rfl, rfl, rfl⟩

/-- Two attributions under different keys commute, up to the order inside the maps. -/
theorem addPodMetric_comm (c : clusterMetric) (p q : Pod) (u v : PodMetrics)
    (hk : podKey p ≠ podKey q) :
    sameCluster ((c.addPodMetric p u).addPodMetric q v)
      ((c.addPodMetric q v).addPodMetric p u) := by
  cases hp : c.nodeMetrics.lookup p.Spec.NodeName with
  | none =>
    cases hq : c.nodeMetrics.lookup q.Spec.NodeName with
    | none =>
      have l1 : (c.addPodMetric p u).nodeMetrics.lookup q.Spec.NodeName = none := by
        rw [addPodMetric_of_lookup_none c p u hp]; exact hq
      have l2 : (c.addPodMetric q v).nodeMetrics.lookup p.Spec.NodeName = none := by
        rw [addPodMetric_of_lookup_none c q v hq]; exact hp
      rw [addPodMetric_of_lookup_none _ q v l1, addPodMetric_of_lookup_none _ p u l2,
        addPodMetric_of_lookup_none c p u hp, addPodMetric_of_lookup_none c q v hq]
      exact ⟨rfl, rfl, sameMap_mapSet_comm _ _ _ _ _ hk, fun _ => sameNodeOption_refl _⟩
    | some m =>
      have hne : p.Spec.NodeName ≠ q.Spec.NodeName := by
        intro e; rw [e, hq] at hp; cases hp
      have l1 : (c.addPodMetric p u).nodeMetrics.lookup q.Spec.NodeName = some m := by
        rw [addPodMetric_of_lookup_none c p u hp]; exact hq
      have l2 : (c.addPodMetric q v).nodeMetrics.lookup p.Spec.NodeName = none := by
        rw [addPodMetric_lookup_node_of_ne c q v _ hne]; exact hp
      rw [addPodMetric_of_lookup_some _ q v m l1, addPodMetric_of_lookup_none _ p u l2,
        addPodMetric_of_lookup_none c p u hp, addPodMetric_of_lookup_some c q v m hq]
      exact ⟨rfl, rfl, sameMap_mapSet_comm _ _ _ _ _ hk, fun _ => sameNodeOption_refl _⟩
  | some n =>
    cases hq : c.nodeMetrics.lookup q.Spec.NodeName with
    | none =>
      have hne : q.Spec.NodeName ≠ p.Spec.NodeName := by
        intro e; rw [e, hp] at hq; cases hq
      have l1 : (c.addPodMetric p u).nodeMetrics.lookup q.Spec.NodeName = none := by
        rw [addPodMetric_lookup_node_of_ne c p u _ hne]; exact hq
      have l2 : (c.addPodMetric q v).nodeMetrics.lookup p.Spec.NodeName = some n := by
        rw [addPodMetric_of_lookup_none c q v hq]; exact hp
      rw [addPodMetric_of_lookup_none _ q v l1, addPodMetric_of_lookup_some _ p u n l2,
        addPodMetric_of_lookup_some c p u n hp, addPodMetric_of_lookup_none c q v hq]
      exact ⟨rfl, rfl, sameMap_mapSet_comm _ _ _ _ _ hk, fun _ => sameNodeOption_refl _⟩
    | some m =>
      by_cases hne : q.Spec.NodeName = p.Spec.NodeName
      · have hmn : m = n := by
          rw [hne, hp] at hq; exact (Option.some.inj hq).symm
        subst hmn
        obtain ⟨n₁, l1, c1, m1, p1⟩ := addPodMetric_lookup_node_self c p u m hp
        obtain ⟨n₂, l2, c2, m2, p2⟩ := addPodMetric_lookup_node_self c q v m hq
        rw [← hne] at l1
        rw [hne] at l2
        rw [addPodMetric_of_lookup_some _ q v n₁ l1, addPodMetric_of_lookup_some _ p u n₂ l2,
          addPodMetric_of_lookup_some c p u m hp, addPodMetric_of_lookup_some c q v m hq]
        simp only [c1, m1, p1, c2, m2, p2]
        refine ⟨?_, ?_, sameMap_mapSet_comm _ _ _ _ _ hk, fun name => ?_⟩
        · simp only [Quantity.Add_right_comm _ (p.requests.get "cpu"),
            Quantity.Add_right_comm _ (p.limits.get "cpu"),
            Quantity.Add_right_comm _ (usageSum u.Containers "cpu")]
        · simp only [Quantity.Add_right_comm _ (p.requests.get "memory"),
            Quantity.Add_right_comm _ (p.limits.get "memory"),
            Quantity.Add_right_comm _ (usageSum u.Containers "memory")]
        · simp only [lookup_mapSet, hne]
          by_cases hname : name = p.Spec.NodeName
          · simp only [if_pos hname, sameNodeOption]
            refine ⟨?_, ?_, sameMap_mapSet_comm _ _ _ _ _ hk⟩
            · simp only [Quantity.Add_right_comm _ (p.requests.get "cpu"),
                Quantity.Add_right_comm _ (p.limits.get "cpu"),
                Quantity.Add_right_comm _ (usageSum u.Containers "cpu")]
            · simp only [Quantity.Add_right_comm _ (p.requests.get "memory"),
                Quantity.Add_right_comm _ (p.limits.get "memory"),
                Quantity.Add_right_comm _ (usageSum u.Containers "memory")]
          · simp only [if_neg hname]
            exact sameNodeOption_refl _
      · have l1 : (c.addPodMetric p u).nodeMetrics.lookup q.Spec.NodeName = some m := by
          rw [addPodMetric_lookup_node_of_ne c p u _ hne]; exact hq
        have l2 : (c.addPodMetric q v).nodeMetrics.lookup p.Spec.NodeName = some n := by
          rw [addPodMetric_lookup_node_of_ne c q v _ (fun e => hne e.symm)]; exact hp
        rw [addPodMetric_of_lookup_some _ q v m l1, addPodMetric_of_lookup_some _ p u n l2,
          addPodMetric_of_lookup_some c p u n hp, addPodMetric_of_lookup_some c q v m hq]
        refine ⟨?_, ?_, sameMap_mapSet_comm _ _ _ _ _ hk, fun name =>
          sameNodeOption_of_eq (sameMap_mapSet_comm _ _ _ _ _ (fun e => hne e.symm) name)⟩
        · simp only [Quantity.Add_right_comm _ (p.requests.get "cpu"),
            Quantity.Add_right_comm _ (p.limits.get "cpu"),
            Quantity.Add_right_comm _ (usageSum u.Containers "cpu")]
        · simp only [Quantity.Add_right_comm _ (p.requests.get "memory"),
            Quantity.Add_right_comm _ (p.limits.get "memory"),
            Quantity.Add_right_comm _ (usageSum u.Containers "memory")]

theorem addPodMetrics_cons (c : clusterMetric) (p : Pod × PodMetrics)
    (pods : List (Pod × PodMetrics)) :
    addPodMetrics c (p :: pods) = addPodMetrics (c.addPodMetric p.1 p.2) pods := rfl

theorem addPodMetrics_perm_aux {l₁ l₂ : List (Pod × PodMetrics)} (hperm : l₁.Perm l₂) :
    (l₁.map (fun p => podKey p.1)).Nodup →
    ∀ c₁ c₂ : clusterMetric, sameCluster c₁ c₂ →
      sameCluster (addPodMetrics c₁ l₁) (addPodMetrics c₂ l₂) := by
  induction hperm with
  | nil => exact fun _ _ _ h => h
  | cons x _ ih =>
    intro hk c₁ c₂ h
    rw [List.map_cons, List.nodup_cons] at hk
    rw [addPodMetrics_cons, addPodMetrics_cons]
    exact ih hk.2 _ _ (addPodMetric_sameCluster h x.1 x.2)
  | swap x y l =>
    intro hk c₁ c₂ h
    rw [List.map_cons, List.map_cons, List.nodup_cons] at hk
    have hne : podKey y.1 ≠ podKey x.1 := by
      intro e
      exact hk.1 (by rw [e]; exact List.mem_cons_self _ _)
    simp only [addPodMetrics_cons]
    refine addPodMetrics_sameCluster ?_ l
    exact sameCluster_trans (addPodMetric_comm c₁ y.1 x.1 y.2 x.2 hne)
      (addPodMetric_sameCluster (addPodMetric_sameCluster h x.1 x.2) y.1 y.2)
  | trans h₁ _ ih₁ ih₂ =>
    intro hk c₁ c₂ h
    have hk2 := ((h₁.map (fun p => podKey p.1)).nodup_iff).1 hk
    exact sameCluster_trans (ih₁ hk c₁ c₂ h) (ih₂ hk2 c₂ c₂ (sameCluster_refl c₂))

/-- With colliding keys the order does matter: the entry left under "a-b-c" is the
one of the pod attributed last. -/
theorem order_matters_on_collision :
    ((addPodMetrics exCluster [(exPodA, exUsage), (exPodB, exUsage)]).podMetrics.lookup
        "a-b-c").map (fun p => (p.namespace_, p.name)) = some ("a", "b-c") ∧
    ((addPodMetrics exCluster [(exPodB, exUsage), (exPodA, exUsage)]).podMetrics.lookup
        "a-b-c").map (fun p => (p.namespace_, p.name)) = some ("a-b", "c") := by
  decide

/-- C20: for every initial cluster and every list of pods whose keys are pairwise
distinct, attributing the pods in the order of any permutation of the list gives
the same cluster cpu and memory metrics, the same pod index of the cluster and,
under every node name, a node with the same cpu and memory metrics and the same
pod index. -/
theorem addPodMetrics_order_independent (cm : clusterMetric)
    (pods₁ pods₂ : List (Pod × PodMetrics)) (hperm : pods₁.Perm pods₂)
    (hk : (pods₁.map (fun p => podKey p.1)).Nodup) :
    sameCluster (addPodMetrics cm pods₁) (addPodMetrics cm pods₂) :=
  addPodMetrics_perm_aux hperm hk cm cm (sameCluster_refl cm)

/-- Example for C20: swapping the first two of three pods leaves the cluster's cpu
metric the same. -/
theorem addPodMetrics_order_independent_witness :
    ([(exScenarioPod, exUsage), (exOrphan, exUsage), (exPodA, exUsage)].map
      (fun p => podKey p.1)).Nodup ∧
    (addPodMetrics exCluster [(exScenarioPod, exUsage), (exOrphan, exUsage), (exPodA, exUsage)]).cpu
      = (addPodMetrics exCluster
          [(exOrphan, exUsage), (exScenarioPod, exUsage), (exPodA, exUsage)]).cpu :=
  ⟨by decide,
   (addPodMetrics_order_independent exCluster
      [(exScenarioPod, exUsage), (exOrphan, exUsage), (exPodA, exUsage)]
      [(exOrphan, exUsage), (exScenarioPod, exUsage), (exPodA, exUsage)]
      (List.Perm.swap _ _ _) (by decide)).1⟩

end Capacity
